import Mathlib

/-!
Verification of the guest-chatbot answer-resolution pipeline
(backend/server.js): text normalisation, the directions classifier, the
local-guide named-place matcher, the nearest-category resolver with its
distance parser, the generic-nearby classifier, the FAQ semantic matcher
with cosine similarity, and the fixed-order routing pipeline of the
POST /api/chat handler.

Modelling conventions:
- JS strings are `List Char`; `toLowerCase`/`toUpperCase` are modelled on
  the ASCII range (every input the claims touch is ASCII).
- The regex character class of whitespace is modelled by the ASCII
  whitespace characters.
- JS numbers coming out of `parseFloat` are modelled exactly: `JsNum` is
  NaN, positive infinity, or a rational.
- External calls (language detection, translation, embeddings, the places
  web service, the generative model) are oracles: functions from the call
  arguments to `Except Unit result`, where `Except.error` is the thrown
  failure that the code catches.  The response cache only affects repeated
  requests and is invisible to a single request, so it is not modelled.
- Embedding vectors are `List Real` (JS floats modelled as reals).
- A JS stable sort followed by taking element 0 is modelled by directly
  selecting the first element with the extremal key, which is the same
  row.
-/

namespace Yaka

/-- Shorthand: the character list of a string literal. -/
def str (s : String) : List Char := s.data

/-- JS toLowerCase, ASCII fragment. -/
def lowerChar (c : Char) : Char :=
  if 'A' ≤ c ∧ c ≤ 'Z' then Char.ofNat (c.toNat + 32) else c

/-- JS toUpperCase, ASCII fragment. -/
def upperChar (c : Char) : Char :=
  if 'a' ≤ c ∧ c ≤ 'z' then Char.ofNat (c.toNat - 32) else c

def lowerL (s : List Char) : List Char := s.map lowerChar

def upperL (s : List Char) : List Char := s.map upperChar

/-- The regex class \s restricted to ASCII. -/
def isWsChar (c : Char) : Bool :=
  c == ' ' || c == '\t' || c == '\n' || c == '\r'

/-- JS String.prototype.trim. -/
def trimL (s : List Char) : List Char :=
  ((((s.dropWhile isWsChar).reverse).dropWhile isWsChar)).reverse

def isDigitChar (c : Char) : Bool := '0' ≤ c && c ≤ '9'

/-- The regex class of [\d.]. -/
def isDigitDotChar (c : Char) : Bool := isDigitChar c || c == '.'

/-- The regex word class \w, deciding the \b boundary. -/
def isWordChar (c : Char) : Bool :=
  ('a' ≤ c && c ≤ 'z') || ('A' ≤ c && c ≤ 'Z') || isDigitChar c || c == '_'

/-- A character the normaliser keeps: [a-z0-9]. -/
def isLowerAlnum (c : Char) : Bool :=
  ('a' ≤ c && c ≤ 'z') || isDigitChar c

/-- needle `isPrefixOf` hay, spelled out. -/
def startsWithL : List Char → List Char → Bool
  | _, [] => true
  | [], _ :: _ => false
  | c :: hs, d :: ns => c == d && startsWithL hs ns

/-- JS String.prototype.includes: needle occurs as a contiguous substring. -/
def containsL : List Char → List Char → Bool
  | [], needle => needle.isEmpty
  | c :: t, needle => startsWithL (c :: t) needle || containsL t needle

/-- replace(/\s+/g, ' '): collapse each whitespace run to one space.
The flag says whether the previous kept character was part of a run. -/
def collapseWsAux : Bool → List Char → List Char
  | _, [] => []
  | prevWs, c :: t =>
    if isWsChar c then
      if prevWs then collapseWsAux true t else ' ' :: collapseWsAux true t
    else c :: collapseWsAux false t

/-- norm(s) of the source: lowercase, replace every character outside
[a-z0-9\s] by a space, collapse whitespace runs, trim. -/
def normL (s : List Char) : List Char :=
  trimL (collapseWsAux false
    (s.map (fun c =>
      let lc := lowerChar c
      if isLowerAlnum lc || isWsChar lc then lc else ' ')))

/-- JS split(' '): segments between single space characters. -/
def splitSpaceAux (cur : List Char) : List Char → List (List Char)
  | [] => [cur.reverse]
  | c :: t =>
    if c == ' ' then cur.reverse :: splitSpaceAux [] t
    else splitSpaceAux (c :: cur) t

def splitSpace (s : List Char) : List (List Char) := splitSpaceAux [] s

/-- JS Array.prototype.join with a separator. -/
def joinSep (sep : List Char) : List (List Char) → List Char
  | [] => []
  | [x] => x
  | x :: y :: t => x ++ sep ++ joinSep sep (y :: t)

/-- Decimal rendering of a natural number (template literal interpolation). -/
def natStr (n : Nat) : List Char := Nat.toDigits 10 n

/-- isDirectionsQuestion(message) of the source. -/
def isDirectionsQuestion (message : List Char) : Bool :=
  let s := normL message
  containsL s (str "how do i get") ||
  containsL s (str "how to get") ||
  containsL s (str "directions") ||
  containsL s (str "route to") ||
  containsL s (str "get to ") ||
  containsL s (str "go to ") ||
  containsL s (str "how can i get") ||
  containsL s (str "how can i go") ||
  containsL s (str "how do we get") ||
  containsL s (str "how do we go") ||
  containsL s (str "way to ")

/-! ## LocalGuide rows and the named-place matcher -/

/-- A row of the LocalGuide sheet, fields read through (x || '').toString(). -/
structure Row where
  apt_id : List Char
  category : List Char
  name : List Char
  distance : List Char
  description : List Char
  maps_link : List Char
deriving DecidableEq

/-- The candidate filter of findLocalGuidePlace: rows of this apartment or of
apt_id ALL (case-insensitively). -/
def lgCandidates (guide : List Row) (aptId : List Char) : List Row :=
  guide.filter fun r =>
    trimL r.apt_id == trimL aptId || upperL (trimL r.apt_id) == str "ALL"

/-- The heuristic score of one candidate row against the normalised message:
100 plus the length of the normalised name when the message contains the whole
name, plus 5 per message token of length at least 3 occurring inside the name,
plus 10 on a directions question. -/
def scoreLG (msgN : List Char) (dirBonus : Bool) (r : Row) : Nat :=
  let n := normL r.name
  let base := if containsL msgN n then 100 + n.length else 0
  let toks := (splitSpace msgN).filter fun t => 3 ≤ t.length
  let hits := (toks.filter fun t => containsL n t).length
  base + 5 * hits + (if dirBonus then 10 else 0)

/-- First element with the maximal second component: the head of the stable
descending sort the source uses. -/
def maxFirst {α : Type} : List (α × Nat) → Option (α × Nat)
  | [] => none
  | x :: xs =>
    match maxFirst xs with
    | none => some x
    | some m => if m.2 > x.2 then some m else some x

/-- findLocalGuidePlace(aptId, message): the best-scoring candidate row when
its score reaches the floor of 30, rows with an empty normalised name
skipped. -/
def findLocalGuidePlace (guide : List Row) (aptId message : List Char) :
    Option Row :=
  let msgN := normL message
  let dir := isDirectionsQuestion message
  let scored := (lgCandidates guide aptId).filterMap fun r =>
    if normL r.name = [] then none else some (r, scoreLG msgN dir r)
  match maxFirst scored with
  | some m => if 30 ≤ m.2 then some m.1 else none
  | none => none

/-- formatLocalGuideReply(placeRow, message). -/
def formatLocalGuideReply (r : Row) (message : List Char) : List Char :=
  let name := trimL r.name
  let distance := trimL r.distance
  let desc := trimL r.description
  let link := trimL r.maps_link
  if isDirectionsQuestion message then
    trimL ((str "To get to " ++ name)
      ++ (if distance ≠ [] then str " (about " ++ distance ++ str " away)" else [])
      ++ str ", open Google Maps and follow the route:\n"
      ++ (if link ≠ [] then link else str "(map link not available)")
      ++ (if desc ≠ [] then str "\n\nTip: " ++ desc else []))
  else
    trimL (name
      ++ (if distance ≠ [] then str " — about " ++ distance ++ str " away." else [])
      ++ (if desc ≠ [] then str "\n" ++ desc else [])
      ++ (if link ≠ [] then str "\n\nGoogle Maps:\n" ++ link else []))

/-! ## Distance parsing (distanceToMetres) -/

/-- A JS number as produced by parseFloat and arithmetic on its result. -/
inductive JsNum
  | nan
  | inf
  | fin (q : ℚ)
deriving DecidableEq

/-- Multiplication by an integer constant (the km and minutes factors),
written through mkRat so that it evaluates by kernel reduction; jsMul_fin
below shows it is multiplication. -/
def jsMul (x : JsNum) (k : ℤ) : JsNum :=
  match x with
  | .nan => .nan
  | .inf => .inf
  | .fin q => .fin (mkRat (q.num * k) q.den)

def digitsVal (l : List Char) : Nat :=
  l.foldl (fun acc c => 10 * acc + (c.toNat - '0'.toNat)) 0

/-- parseFloat on a nonempty run of [0-9.]: digits, an optional dot, digits;
NaN when no digit is found before parsing stops.  The decimal value is built
through mkRat so that it evaluates by kernel reduction. -/
def parseFloatDD (g : List Char) : JsNum :=
  let intPart := g.takeWhile isDigitChar
  let rest := g.drop intPart.length
  match rest with
  | '.' :: r2 =>
    let fracPart := r2.takeWhile isDigitChar
    if intPart = [] ∧ fracPart = [] then .nan
    else .fin (mkRat (digitsVal intPart * 10 ^ fracPart.length + digitsVal fracPart)
      (10 ^ fracPart.length))
  | _ => if intPart = [] then .nan else .fin (mkRat (digitsVal intPart) 1)

/-- At this position: a nonempty [\d.]+ run, then \s*, then the literal.
Returns the captured number run. -/
def tryNumLit (lit s : List Char) : Option (List Char) :=
  let g := s.takeWhile isDigitDotChar
  if g = [] then none
  else if startsWithL ((s.drop g.length).dropWhile isWsChar) lit then some g
  else none

/-- Leftmost match of ([\d.]+)\s*LIT. -/
def searchNumLit (lit : List Char) : List Char → Option (List Char)
  | [] => none
  | c :: t =>
    match tryNumLit lit (c :: t) with
    | some g => some g
    | none => searchNumLit lit t

/-- The \b test after a literal has matched: end of input or a non-word
character. -/
def boundaryAfter (r : List Char) (n : Nat) : Bool :=
  match r.drop n with
  | [] => true
  | c :: _ => !isWordChar c

/-- The part of the m-pattern after the captured number: \s*m\b, a function
of the remainder after the capture. -/
def mTailCheck (rest : List Char) : Bool :=
  match rest.dropWhile isWsChar with
  | 'm' :: r2 =>
    (match r2 with
     | [] => true
     | c :: _ => !isWordChar c)
  | _ => false

/-- At this position: ([\d.]+)\s*m\b. -/
def tryNumM (s : List Char) : Option (List Char) :=
  let g := s.takeWhile isDigitDotChar
  if g = [] then none
  else if mTailCheck (s.drop g.length) then some g else none

/-- Leftmost match of ([\d.]+)\s*m\b. -/
def searchNumM : List Char → Option (List Char)
  | [] => none
  | c :: t =>
    match tryNumM (c :: t) with
    | some g => some g
    | none => searchNumM t

/-- The part of the minutes pattern after the captured number:
\s*(min|mins|minute|minutes)\b, alternatives tried in regex order, as a
function of the remainder after the capture. -/
def minsTailCheck (rest : List Char) : Bool :=
  let r := rest.dropWhile isWsChar
  (startsWithL r (str "min") && boundaryAfter r 3) ||
  (startsWithL r (str "mins") && boundaryAfter r 4) ||
  (startsWithL r (str "minute") && boundaryAfter r 6) ||
  (startsWithL r (str "minutes") && boundaryAfter r 7)

/-- At this position: ([\d.]+)\s*(min|mins|minute|minutes)\b. -/
def tryMins (s : List Char) : Option (List Char) :=
  let g := s.takeWhile isDigitDotChar
  if g = [] then none
  else if minsTailCheck (s.drop g.length) then some g else none

/-- Leftmost match of ([\d.]+)\s*(min|mins|minute|minutes)\b. -/
def searchMins : List Char → Option (List Char)
  | [] => none
  | c :: t =>
    match tryMins (c :: t) with
    | some g => some g
    | none => searchMins t

/-- Leftmost match of ([\d.]+). -/
def searchNum : List Char → Option (List Char)
  | [] => none
  | c :: t =>
    if isDigitDotChar c then some ((c :: t).takeWhile isDigitDotChar)
    else searchNum t

/-- distanceToMetres(distanceStr) of the source: km times 1000, m as is,
minutes times 80, else the first bare number, else positive infinity. -/
def distanceToMetres (distanceStr : List Char) : JsNum :=
  let s := lowerL (trimL distanceStr)
  if s = [] then .inf
  else
    match searchNumLit (str "km") s with
    | some g => jsMul (parseFloatDD g) 1000
    | none =>
      match searchNumM s with
      | some g => parseFloatDD g
      | none =>
        match searchMins s with
        | some g => jsMul (parseFloatDD g) 80
        | none =>
          match searchNum s with
          | some g => parseFloatDD g
          | none => .inf

/-! ## Nearest-category classifier and resolver -/

def normaliseCategory (s : List Char) : List Char := lowerL (trimL s)

def getLocalGuideRowsForApt (guide : List Row) (aptId : List Char) : List Row :=
  guide.filter fun r => trimL r.apt_id == trimL aptId

/-- The category and the label of a detected nearest-category intent. -/
structure CatIntent where
  category : List Char
  label : List Char
deriving DecidableEq

/-- detectNearestCategoryIntent(message) of the source: fixed normalised
phrase sets, first matching category wins. -/
def detectNearestCategoryIntent (message : List Char) : Option CatIntent :=
  let s := normL message
  if containsL s (str "nearest supermarket") ||
     containsL s (str "closest supermarket") ||
     containsL s (str "nearest grocery") ||
     containsL s (str "closest grocery") ||
     containsL s (str "nearest groceries") ||
     containsL s (str "nearest grocery store") ||
     containsL s (str "closest grocery store") ||
     containsL s (str "where is the nearest supermarket") ||
     containsL s (str "where is nearest supermarket") then
    some ⟨str "supermarket", str "supermarket"⟩
  else if containsL s (str "nearest atm") ||
     containsL s (str "closest atm") ||
     containsL s (str "nearest cash machine") ||
     containsL s (str "closest cash machine") ||
     containsL s (str "where is the nearest atm") ||
     containsL s (str "where is nearest atm") then
    some ⟨str "atm", str "ATM"⟩
  else if containsL s (str "nearest pharmacy") ||
     containsL s (str "closest pharmacy") ||
     containsL s (str "nearest chemist") ||
     containsL s (str "closest chemist") ||
     containsL s (str "where is the nearest pharmacy") ||
     containsL s (str "where is nearest pharmacy") then
    some ⟨str "pharmacy", str "pharmacy"⟩
  else if containsL s (str "nearest cafe") ||
     containsL s (str "closest cafe") ||
     containsL s (str "nearest coffee") ||
     containsL s (str "closest coffee") then
    some ⟨str "cafe", str "café"⟩
  else if containsL s (str "nearest restaurant") ||
     containsL s (str "closest restaurant") ||
     containsL s (str "where can i eat nearby") ||
     containsL s (str "eat nearby") then
    some ⟨str "restaurant", str "restaurant"⟩
  else if containsL s (str "nearest attraction") ||
     containsL s (str "closest attraction") ||
     containsL s (str "things to do nearby") ||
     containsL s (str "nearby attractions") then
    some ⟨str "attraction", str "attraction"⟩
  else none

/-- The comparator a - b of the source's ascending sort, as a strict test:
true when the left number sorts strictly before the right one (a comparator
returning NaN causes no swap, so NaN compares as not-less). -/
def jsLtNum : JsNum → JsNum → Bool
  | .fin a, .fin b => a < b
  | .fin _, .inf => true
  | _, _ => false

/-- First element with the minimal parsed distance: the head of the stable
ascending sort the source uses. -/
def minByDist : List Row → Option Row
  | [] => none
  | r :: rs =>
    match minByDist rs with
    | none => some r
    | some m =>
      if jsLtNum (distanceToMetres m.distance) (distanceToMetres r.distance)
      then some m else some r

/-- getNearestFromLocalGuide(aptId, category) of the source. -/
def getNearestFromLocalGuide (guide : List Row) (aptId category : List Char) :
    Option Row :=
  let rows := (getLocalGuideRowsForApt guide aptId).filter fun r =>
    normaliseCategory r.category == normaliseCategory category
  minByDist rows

/-- formatLocalGuideNearestReply(row, label). -/
def formatLocalGuideNearestReply (r : Row) (label : List Char) : List Char :=
  let name := if trimL r.name = [] then str "Unknown place" else trimL r.name
  let dist := trimL r.distance
  let desc := trimL r.description
  let link := trimL r.maps_link
  trimL ((str "Nearest " ++ label ++ str ": " ++ name)
    ++ (if dist ≠ [] then str " (" ++ dist ++ str " away)." else str ".")
    ++ (if desc ≠ [] then str "\n\nDirections: " ++ desc else [])
    ++ (if link ≠ [] then str "\n\nGoogle Maps:\n" ++ link else []))

/-! ## Generic-nearby classifier -/

/-- The place type and the label of a detected generic-nearby intent. -/
structure NearbyIntent where
  type : List Char
  label : List Char
deriving DecidableEq

/-- detectNearbyIntent(message) of the source: suppressed on a directions
question or when the normalised message contains the nonempty normalised name
of any loaded local-guide row; otherwise raw lowercase keyword groups,
first match wins. -/
def detectNearbyIntent (guide : List Row) (message : List Char) :
    Option NearbyIntent :=
  let s := lowerL message
  if isDirectionsQuestion message then none
  else
    let msgN := normL message
    if guide.any (fun r => !(normL r.name).isEmpty && containsL msgN (normL r.name))
    then none
    else if containsL s (str "restaurant") || containsL s (str "eat") ||
        containsL s (str "dinner") || containsL s (str "lunch") ||
        containsL s (str "breakfast") then
      some ⟨str "restaurant", str "restaurants"⟩
    else if containsL s (str "cafe") || containsL s (str "coffee") then
      some ⟨str "cafe", str "cafés"⟩
    else if containsL s (str "atm") || containsL s (str "cash") then
      some ⟨str "atm", str "ATMs"⟩
    else if containsL s (str "pharmacy") || containsL s (str "chemist") ||
        containsL s (str "medicine") then
      some ⟨str "pharmacy", str "pharmacies"⟩
    else if containsL s (str "supermarket") || containsL s (str "grocery") ||
        containsL s (str "groceries") then
      some ⟨str "supermarket", str "supermarkets"⟩
    else if containsL s (str "attraction") || containsL s (str "things to do") ||
        containsL s (str "tourist") || containsL s (str "visit") then
      some ⟨str "tourist_attraction", str "attractions"⟩
    else none

/-! ## Apartments and the places lookup -/

/-- A row of the Apartments sheet; a missing lat or lng cell is the empty
string (undefined and the empty string are equally falsy where they are
used). -/
structure AptRow where
  apt_id : List Char
  lat : List Char
  lng : List Char
deriving DecidableEq

def getApartmentById (apartments : List AptRow) (aptId : List Char) :
    Option AptRow :=
  apartments.find? fun a => trimL a.apt_id == trimL aptId

/-- A result of the places web service. -/
structure Place where
  name : List Char
  vicinity : List Char
  formatted_address : List Char
  rating : List Char
  place_id : List Char
deriving DecidableEq

/-- PLACES_MAX_RESULTS with its default. -/
def PLACES_MAX_RESULTS : Nat := 5

def placeLine (i : Nat) (p : Place) : List Char :=
  let name := if p.name = [] then str "Unknown" else p.name
  let addr := if p.vicinity ≠ [] then p.vicinity else p.formatted_address
  let rating := if p.rating ≠ [] then str "⭐ " ++ p.rating else []
  let maps := if p.place_id ≠ [] then
    str "\nhttps://www.google.com/maps/place/?q=place_id:" ++ p.place_id else []
  natStr (i + 1) ++ str ". " ++ name
    ++ (if rating ≠ [] then str " — " ++ rating else [])
    ++ str "\n" ++ addr ++ maps

def placeLines (i : Nat) : List Place → List (List Char)
  | [] => []
  | p :: t => placeLine i p :: placeLines (i + 1) t

/-- formatPlacesReply(label, places): none stands for the null that triggers
the zero-results apology. -/
def formatPlacesReply (label : List Char) (places : List Place) :
    Option (List Char) :=
  if places = [] then none
  else some (str "Here are some nearby " ++ label ++ str ":\n\n"
    ++ joinSep (str "\n\n") (placeLines 0 (places.take PLACES_MAX_RESULTS)))

/-! ## FAQ entries, oracles for the external calls, and the environment -/

/-- An FAQ row: question, answer, visibility, and the memoised embedding
slot (populated lazily; within one request only its value at call time
matters). -/
structure FaqEntry where
  question : List Char
  answer : List Char
  visibility : List Char
  emb : Option (List ℝ)

/-- A ranked FAQ match as pushed by findBestMatches. -/
structure Scored where
  question : List Char
  answer : List Char
  visibility : List Char
  score : ℝ

/-- The outcomes of the external calls a single request can make.  Each field
maps the call arguments to the content the code reads out of the response;
Except.error is the thrown failure the code catches at the call site. -/
structure Oracles where
  detect : Except Unit (List Char)
  translate : List Char → List Char → Except Unit (List Char)
  embed : List Char → Except Unit (List ℝ)
  places : List Char → List Char → List Char → Except Unit (List Place)
  llm : List Char → List Char → Except Unit (List Char)

/-- The loaded reference data and configuration a request reads. -/
structure Env where
  guide : List Row
  apartments : List AptRow
  faqForApt : List Char → List FaqEntry
  globalFaqs : List FaqEntry
  embThreshold : ℝ

/-! ## Cosine similarity and the FAQ semantic matcher -/

def dotL (a b : List ℝ) : ℝ := (List.zipWith (fun x y => x * y) a b).sum

def sqL (a : List ℝ) : ℝ := (a.map fun x => x * x).sum

/-- cosineSimilarity(a, b) of the source: 0 when either vector is absent or
the lengths differ, else dot over the product of norms plus 1e-12. -/
noncomputable def cosineSimilarity : Option (List ℝ) → Option (List ℝ) → ℝ
  | some a, some b =>
    if a.length = b.length then
      dotL a b / (Real.sqrt (sqL a) * Real.sqrt (sqL b) + 1e-12)
    else 0
  | _, _ => 0

/-- The embedding of one candidate as available to this request: the memoised
vector, or the lazily fetched one, or nothing when that fetch fails (the
candidate is then skipped). -/
def effEmb (o : Oracles) (f : FaqEntry) : Option (List ℝ) :=
  match f.emb with
  | some e => some e
  | none => (o.embed f.question).toOption

open Classical in
/-- Insertion into a descending-sorted list, preserving the original order of
equal scores (the stable sort of the source). -/
noncomputable def insertScored (x : Scored) : List Scored → List Scored
  | [] => [x]
  | y :: ys => if y.score ≤ x.score then x :: y :: ys else y :: insertScored x ys

noncomputable def sortScoredDesc (l : List Scored) : List Scored :=
  l.foldr insertScored []

/-- findBestMatches(aptData, userMessage, topK) of the source: apartment FAQs
then global FAQs, empty on an empty pool or when embedding the user message
fails, candidates without an available embedding skipped, ranked descending
by cosine similarity, first topK returned. -/
noncomputable def findBestMatches (o : Oracles) (globalFaqs aptData : List FaqEntry)
    (userMessage : List Char) (topK : Nat) : List Scored :=
  let combined := aptData ++ globalFaqs
  if combined.isEmpty then []
  else
    match o.embed userMessage with
    | .error _ => []
    | .ok userEmb =>
      let scored := combined.filterMap fun f =>
        match effEmb o f with
        | some e => some ⟨f.question, f.answer, f.visibility,
            cosineSimilarity (some userEmb) (some e)⟩
        | none => none
      (sortScoredDesc scored).take topK

/-! ## Language detection, translation, generative fallback -/

def isLowerAlpha (c : Char) : Bool := 'a' ≤ c && c ≤ 'z'

/-- detectLanguage(text) of the source: the first run of letters of the
lowercased trimmed completion, or en when that is empty or the call fails. -/
def detectLanguage (o : Oracles) : List Char :=
  match o.detect with
  | .ok content =>
    let code := lowerL (trimL content)
    let token := code.takeWhile isLowerAlpha
    if token = [] then str "en" else token
  | .error _ => str "en"

/-- translateText(text, targetLang) of the source: identity on empty text, an
empty target, or target en; otherwise the trimmed completion when the call
succeeds with nonempty text, else the original text. -/
def translateText (o : Oracles) (text targetLang : List Char) : List Char :=
  if text = [] then text
  else if targetLang = [] then text
  else if lowerL targetLang = str "en" then text
  else
    match o.translate text targetLang with
    | .ok content => if trimL content = [] then text else trimL content
    | .error _ => text

/-- The per-branch translation step of the chat handler: translate the reply
when the detected language is not en. -/
def applyLang (o : Oracles) (userLang t : List Char) : List Char :=
  if userLang ≠ str "en" then translateText o t userLang else t

def sysPromptLLM (userLang : List Char) : List Char :=
  str "You are a helpful concierge assistant for a short-term rental apartment.\nUse the provided FAQ items to answer the guest's question.\nAnswer in the language specified (ISO-639-1): "
  ++ userLang ++
  str ".\nBe concise (no more than 120 words).\nDo not invent facts not supported by the provided FAQs.\nIf the answer is not present, politely suggest contacting the host."

def faqCtxItems (i : Nat) : List Scored → List (List Char)
  | [] => []
  | m :: t =>
    (str "FAQ " ++ natStr (i + 1) ++ str "\nQ: " ++ m.question
      ++ str "\nA: " ++ m.answer) :: faqCtxItems (i + 1) t

def llmUserPrompt (userMessage : List Char) (topMatches : List Scored) :
    List Char :=
  let ctx := joinSep (str "\n\n") (faqCtxItems 0 (topMatches.take 3))
  let faqContext := if ctx = [] then str "(none)" else ctx
  str "Guest question: \"" ++ userMessage ++ str "\"\n\nRelevant FAQs:\n"
    ++ faqContext ++ str "\n\nAnswer:"

/-- callLLMFallback(userMessage, topMatches, userLang) of the source: the
trimmed completion, null (none) when the call fails or the completion is
empty. -/
def callLLMFallback (o : Oracles) (userMessage : List Char)
    (topMatches : List Scored) (userLang : List Char) : Option (List Char) :=
  match o.llm (sysPromptLLM userLang) (llmUserPrompt userMessage topMatches) with
  | .ok content => if content = [] then none else some (trimL content)
  | .error _ => none

/-! ## The POST /api/chat pipeline -/

/-- The place object of a local-guide response; the nearest branch also sends
the category. -/
structure PlaceJson where
  category : Option (List Char)
  name : List Char
  distance : List Char
  maps_link : List Char

/-- The JSON a request ends with, one structure for every branch; fields a
branch does not send are none or empty. -/
structure ChatResponse where
  status : Nat
  reply : List Char
  source : List Char
  detected_language : List Char
  score : Option ℝ
  matchList : List Scored
  place : Option PlaceJson

def missingLatLngText : List Char :=
  str "This apartment doesn't have a location configured yet, so I can't look up nearby places. Please ask the host to add it."

def placesApologyText (label : List Char) : List Char :=
  str "I couldn't find nearby " ++ label ++ str " right now."

def placesErrorText : List Char :=
  str "Sorry — I couldn't fetch nearby places right now. Please try again later."

def cannedFallbackText : List Char :=
  str "I don't have a specific answer for that. Would you like me to notify the host?"

open Classical in
/-- Stages 5 and 6: the generative fallback, then the canned final
fallback. -/
noncomputable def chatStage5 (o : Oracles) (message userLang : List Char)
    (tm : List Scored) (bestScore : ℝ) : ChatResponse :=
  let fallback : ChatResponse :=
    ⟨200, applyLang o userLang cannedFallbackText, str "fallback", userLang,
      some bestScore, tm.take 3, none⟩
  match callLLMFallback o message tm userLang with
  | some t =>
    if t ≠ [] then
      ⟨200, t, str "llm_fallback", userLang, some bestScore, tm.take 3, none⟩
    else fallback
  | none => fallback

open Classical in
/-- Stage 4: the FAQ semantic match against the acceptance threshold. -/
noncomputable def chatStage4 (env : Env) (o : Oracles)
    (apt message userLang : List Char) : ChatResponse :=
  let tm := findBestMatches o env.globalFaqs (env.faqForApt apt) message 5
  match tm.head? with
  | some b =>
    if env.embThreshold ≤ b.score then
      ⟨200, applyLang o userLang b.answer, str "faq", userLang,
        some b.score, tm.take 3, none⟩
    else chatStage5 o message userLang tm b.score
  | none => chatStage5 o message userLang tm 0

/-- Stage 3: the generic nearby places lookup. -/
noncomputable def chatStage3 (env : Env) (o : Oracles)
    (apt message userLang : List Char) : ChatResponse :=
  match detectNearbyIntent env.guide message with
  | some it =>
    let aptRow := getApartmentById env.apartments apt
    let lat := match aptRow with | some a => a.lat | none => []
    let lng := match aptRow with | some a => a.lng | none => []
    if lat = [] ∨ lng = [] then
      ⟨200, applyLang o userLang missingLatLngText, str "places_missing_latlng",
        userLang, none, [], none⟩
    else
      match o.places lat lng it.type with
      | .ok places =>
        let body :=
          match formatPlacesReply it.label places with
          | some t => t
          | none => placesApologyText it.label
        ⟨200, applyLang o userLang body, str "google_places_legacy", userLang,
          none, [], none⟩
      | .error _ =>
        ⟨200, applyLang o userLang placesErrorText, str "google_places_error",
          userLang, none, [], none⟩
  | none => chatStage4 env o apt message userLang

/-- Stage 2: the named local-guide place match. -/
noncomputable def chatStage2 (env : Env) (o : Oracles)
    (apt message userLang : List Char) : ChatResponse :=
  match findLocalGuidePlace env.guide apt message with
  | some row =>
    ⟨200, applyLang o userLang (formatLocalGuideReply row message),
      str "local_guide", userLang, none, [],
      some ⟨none, row.name, row.distance, row.maps_link⟩⟩
  | none => chatStage3 env o apt message userLang

/-- The POST /api/chat handler: request validation, language detection, then
the fixed-order pipeline. -/
noncomputable def chatHandler (env : Env) (o : Oracles)
    (apt message : List Char) : ChatResponse :=
  if apt = [] ∨ message = [] then ⟨400, [], [], [], none, [], none⟩
  else
    let userLang := detectLanguage o
    match detectNearestCategoryIntent message with
    | some i =>
      match getNearestFromLocalGuide env.guide apt i.category with
      | some row =>
        ⟨200, applyLang o userLang (formatLocalGuideNearestReply row i.label),
          str "local_guide_nearest", userLang, none, [],
          some ⟨some row.category, row.name, row.distance, row.maps_link⟩⟩
      | none => chatStage2 env o apt message userLang
    | none => chatStage2 env o apt message userLang

/-! ## Shared lemmas -/

theorem jsMul_fin (q : ℚ) (k : ℤ) : jsMul (.fin q) k = .fin (q * k) := by
  show JsNum.fin (mkRat (q.num * k) q.den) = _
  rw [Rat.mkRat_eq_div]
  push_cast
  rw [mul_comm (q.num : ℚ), mul_div_assoc, Rat.num_div_den, mul_comm]

theorem maxFirst_mem {α : Type} {l : List (α × Nat)} {m : α × Nat}
    (h : maxFirst l = some m) : m ∈ l := by
  induction l with
  | nil => simp [maxFirst] at h
  | cons x xs ih =>
    rw [maxFirst] at h
    cases hx : maxFirst xs with
    | none => rw [hx] at h; simp at h; simp [h]
    | some y =>
      rw [hx] at h
      dsimp only at h
      by_cases hc : y.2 > x.2
      · rw [if_pos hc] at h
        simp at h
        exact List.mem_cons_of_mem _ (ih (h ▸ hx))
      · rw [if_neg hc] at h
        simp at h
        simp [h]

theorem maxFirst_eq_none {α : Type} {l : List (α × Nat)}
    (h : maxFirst l = none) : l = [] := by
  cases l with
  | nil => rfl
  | cons x xs =>
    rw [maxFirst] at h
    cases hx : maxFirst xs with
    | none => rw [hx] at h; simp at h
    | some y => rw [hx] at h; dsimp only at h; split at h <;> simp at h

theorem maxFirst_max {α : Type} :
    ∀ {l : List (α × Nat)} {m : α × Nat},
      maxFirst l = some m → ∀ z ∈ l, z.2 ≤ m.2 := by
  intro l
  induction l with
  | nil => simp [maxFirst]
  | cons x xs ih =>
    intro m h z hz
    rw [maxFirst] at h
    cases hx : maxFirst xs with
    | none =>
      rw [hx] at h
      simp at h
      rcases List.mem_cons.1 hz with hz | hz
      · subst hz; simp [← h]
      · rw [maxFirst_eq_none hx] at hz; simp at hz
    | some y =>
      rw [hx] at h
      dsimp only at h
      by_cases hc : y.2 > x.2
      · rw [if_pos hc, Option.some.injEq] at h
        subst h
        rcases List.mem_cons.1 hz with hz | hz
        · subst hz; omega
        · exact ih hx z hz
      · rw [if_neg hc, Option.some.injEq] at h
        subst h
        rcases List.mem_cons.1 hz with hz | hz
        · subst hz; omega
        · have hy := ih hx z hz; omega

theorem maxFirst_isSome {α : Type} {l : List (α × Nat)} (h : l ≠ []) :
    ∃ m, maxFirst l = some m := by
  cases l with
  | nil => simp at h
  | cons x xs =>
    rw [maxFirst]
    cases hx : maxFirst xs with
    | none => exact ⟨x, rfl⟩
    | some y => by_cases hc : y.2 > x.2 <;> simp [hc]

theorem minByDist_mem {l : List Row} {m : Row} (h : minByDist l = some m) :
    m ∈ l := by
  induction l with
  | nil => simp [minByDist] at h
  | cons x xs ih =>
    rw [minByDist] at h
    cases hx : minByDist xs with
    | none => rw [hx] at h; simp at h; simp [h]
    | some y =>
      rw [hx] at h
      dsimp only at h
      by_cases hc : jsLtNum (distanceToMetres y.distance) (distanceToMetres x.distance) = true
      · rw [if_pos hc] at h
        simp at h
        exact List.mem_cons_of_mem _ (ih (h ▸ hx))
      · rw [if_neg hc] at h
        simp at h
        simp [h]

/-! ## Claim theorems -/

/-- C1: when a nearest-category intent is detected and the local guide
resolves it, the pipeline terminates with source local_guide_nearest carrying
that entry; when the intent is detected but no entry resolves, the request
falls through to stage 2, whose first test is the named-place matcher
findLocalGuidePlace. -/
theorem nearest_category_precedence (env : Env) (o : Oracles)
    (apt message : List Char) (i : CatIntent)
    (ha : apt ≠ []) (hm : message ≠ [])
    (hi : detectNearestCategoryIntent message = some i) :
    (∀ row, getNearestFromLocalGuide env.guide apt i.category = some row →
      chatHandler env o apt message =
        ⟨200, applyLang o (detectLanguage o) (formatLocalGuideNearestReply row i.label),
          str "local_guide_nearest", detectLanguage o, none, [],
          some ⟨some row.category, row.name, row.distance, row.maps_link⟩⟩)
    ∧ (getNearestFromLocalGuide env.guide apt i.category = none →
      chatHandler env o apt message = chatStage2 env o apt message (detectLanguage o)
      ∧ ∀ r, findLocalGuidePlace env.guide apt message = some r →
          chatHandler env o apt message =
            ⟨200, applyLang o (detectLanguage o) (formatLocalGuideReply r message),
              str "local_guide", detectLanguage o, none, [],
              some ⟨none, r.name, r.distance, r.maps_link⟩⟩) := by
  have hcond : ¬(apt = [] ∨ message = []) := by
    rintro (h | h) <;> [exact ha h; exact hm h]
  constructor
  · intro row hrow
    rw [chatHandler, if_neg hcond, hi]
    dsimp only
    rw [hrow]
  · intro hnone
    have hpipe : chatHandler env o apt message =
        chatStage2 env o apt message (detectLanguage o) := by
      rw [chatHandler, if_neg hcond, hi]
      dsimp only
      rw [hnone]
    refine ⟨hpipe, fun r hr => ?_⟩
    rw [hpipe, chatStage2, hr]

/-- Witness for C1 at a concrete apartment, oracle set and message: the
nearest branch resolves and terminates, and on an apartment with no pharmacy
row the request reaches the named-place matcher. -/
theorem nearest_category_precedence_witness :
    chatHandler
      ⟨[⟨str "A1", str "pharmacy", str "City Pharmacy", str "300 m", str "", str "maps1"⟩,
        ⟨str "A1", str "pharmacy", str "Far Pharmacy", str "1.2 km", str "", str ""⟩],
       [], fun _ => [], [], 0⟩
      ⟨.ok (str "en"), fun _ _ => .error (), fun _ => .error (),
        fun _ _ _ => .error (), fun _ _ => .error ()⟩
      (str "A1") (str "where is the nearest pharmacy?") =
      ⟨200,
        applyLang
          ⟨.ok (str "en"), fun _ _ => .error (), fun _ => .error (),
            fun _ _ _ => .error (), fun _ _ => .error ()⟩
          (detectLanguage
            ⟨.ok (str "en"), fun _ _ => .error (), fun _ => .error (),
              fun _ _ _ => .error (), fun _ _ => .error ()⟩)
          (formatLocalGuideNearestReply
            ⟨str "A1", str "pharmacy", str "City Pharmacy", str "300 m", str "", str "maps1"⟩
            (str "pharmacy")),
        str "local_guide_nearest",
        detectLanguage
          ⟨.ok (str "en"), fun _ _ => .error (), fun _ => .error (),
            fun _ _ _ => .error (), fun _ _ => .error ()⟩,
        none, [],
        some ⟨some (str "pharmacy"), str "City Pharmacy", str "300 m", str "maps1"⟩⟩ :=
  (nearest_category_precedence _ _ _ _ ⟨str "pharmacy", str "pharmacy"⟩
    (by decide) (by decide) (by decide)).1
    ⟨str "A1", str "pharmacy", str "City Pharmacy", str "300 m", str "", str "maps1"⟩
    (by decide)

/-- The pipeline reaches stage 3 (the generic nearby lookup) whenever the
nearest-category stage passes through (no intent, or intent without an entry)
and the named-place matcher finds nothing. -/
theorem chat_reaches_stage3 (env : Env) (apt message : List Char)
    (ha : apt ≠ []) (hm : message ≠ [])
    (h1 : detectNearestCategoryIntent message = none ∨
      ∃ i, detectNearestCategoryIntent message = some i ∧
        getNearestFromLocalGuide env.guide apt i.category = none)
    (h2 : findLocalGuidePlace env.guide apt message = none) :
    ∀ o : Oracles, chatHandler env o apt message =
      chatStage3 env o apt message (detectLanguage o) := by
  intro o
  have hcond : ¬(apt = [] ∨ message = []) := by
    rintro (h | h) <;> [exact ha h; exact hm h]
  have hstage2 : chatStage2 env o apt message (detectLanguage o) =
      chatStage3 env o apt message (detectLanguage o) := by
    rw [chatStage2, h2]
  rcases h1 with h1 | ⟨i, hi, hnone⟩
  · rw [chatHandler, if_neg hcond, h1]
    exact hstage2
  · rw [chatHandler, if_neg hcond, hi]
    dsimp only
    rw [hnone]
    exact hstage2

/-- C2: with the first two stages passed through and a generic-nearby intent
detected, the request terminates in stage 3 with one of its three sources; a
successful lookup with zero results yields the apology reply under source
google_places_legacy; and the result does not depend on the embedding or
generative oracles, so the FAQ matcher and the fallback are never
consulted. -/
theorem generic_nearby_terminal (env : Env) (o : Oracles)
    (apt message : List Char) (it : NearbyIntent)
    (ha : apt ≠ []) (hm : message ≠ [])
    (h1 : detectNearestCategoryIntent message = none ∨
      ∃ i, detectNearestCategoryIntent message = some i ∧
        getNearestFromLocalGuide env.guide apt i.category = none)
    (h2 : findLocalGuidePlace env.guide apt message = none)
    (h3 : detectNearbyIntent env.guide message = some it) :
    ((chatHandler env o apt message).source = str "google_places_legacy" ∨
     (chatHandler env o apt message).source = str "places_missing_latlng" ∨
     (chatHandler env o apt message).source = str "google_places_error")
    ∧ (∀ a, getApartmentById env.apartments apt = some a →
        a.lat ≠ [] → a.lng ≠ [] → o.places a.lat a.lng it.type = .ok [] →
        (chatHandler env o apt message).source = str "google_places_legacy" ∧
        (chatHandler env o apt message).reply =
          applyLang o (detectLanguage o) (placesApologyText it.label))
    ∧ (∀ o' : Oracles, o'.detect = o.detect → o'.translate = o.translate →
        o'.places = o.places →
        chatHandler env o' apt message = chatHandler env o apt message) := by
  have hreach := chat_reaches_stage3 env apt message ha hm h1 h2
  refine ⟨?_, ?_, ?_⟩
  · rw [hreach o, chatStage3, h3]
    dsimp only
    by_cases hll :
      (match getApartmentById env.apartments apt with
        | some a => a.lat | none => []) = [] ∨
      (match getApartmentById env.apartments apt with
        | some a => a.lng | none => []) = []
    · rw [if_pos hll]
      right; left; rfl
    · rw [if_neg hll]
      cases hpl : o.places
          (match getApartmentById env.apartments apt with
            | some a => a.lat | none => [])
          (match getApartmentById env.apartments apt with
            | some a => a.lng | none => [])
          it.type with
      | ok places => left; rfl
      | error e => right; right; rfl
  · intro a hA hla hlb hok
    rw [hreach o, chatStage3, h3]
    dsimp only
    rw [hA]
    dsimp only
    rw [if_neg (by rintro (h | h) <;> [exact hla h; exact hlb h]), hok]
    dsimp only [formatPlacesReply]
    rw [if_pos rfl]
    exact ⟨rfl, rfl⟩
  · intro o' hdet htr hpl
    have hlang : detectLanguage o' = detectLanguage o := by
      rw [detectLanguage, detectLanguage, hdet]
    have happ : ∀ l t, applyLang o' l t = applyLang o l t := by
      intro l t
      rw [applyLang, applyLang, translateText, translateText, htr]
    rw [hreach o', hreach o, chatStage3, chatStage3, h3]
    dsimp only
    rw [hlang]
    by_cases hll :
      (match getApartmentById env.apartments apt with
        | some a => a.lat | none => []) = [] ∨
      (match getApartmentById env.apartments apt with
        | some a => a.lng | none => []) = []
    · rw [if_pos hll, if_pos hll, happ]
    · rw [if_neg hll, if_neg hll, hpl]
      cases o.places
          (match getApartmentById env.apartments apt with
            | some a => a.lat | none => [])
          (match getApartmentById env.apartments apt with
            | some a => a.lng | none => [])
          it.type with
      | ok places => dsimp only; rw [happ]
      | error e => dsimp only; rw [happ]

/-- Witness for C2: a pharmacy question with no matching local data and a
zero-result places lookup ends with the apology under source
google_places_legacy, for an apartment with coordinates. -/
theorem generic_nearby_terminal_witness :
    (chatHandler
      ⟨[], [⟨str "A2", str "1.23", str "4.56"⟩], fun _ => [], [], 0⟩
      ⟨.ok (str "en"), fun _ _ => .error (), fun _ => .error (),
        fun _ _ _ => .ok [], fun _ _ => .error ()⟩
      (str "A2") (str "any pharmacy nearby?")).source = str "google_places_legacy"
    ∧ (chatHandler
      ⟨[], [⟨str "A2", str "1.23", str "4.56"⟩], fun _ => [], [], 0⟩
      ⟨.ok (str "en"), fun _ _ => .error (), fun _ => .error (),
        fun _ _ _ => .ok [], fun _ _ => .error ()⟩
      (str "A2") (str "any pharmacy nearby?")).reply =
      applyLang
        ⟨.ok (str "en"), fun _ _ => .error (), fun _ => .error (),
          fun _ _ _ => .ok [], fun _ _ => .error ()⟩
        (detectLanguage
          ⟨.ok (str "en"), fun _ _ => .error (), fun _ => .error (),
            fun _ _ _ => .ok [], fun _ _ => .error ()⟩)
        (placesApologyText (str "pharmacies")) :=
  (generic_nearby_terminal
      ⟨[], [⟨str "A2", str "1.23", str "4.56"⟩], fun _ => [], [], 0⟩
      ⟨.ok (str "en"), fun _ _ => .error (), fun _ => .error (),
        fun _ _ _ => .ok [], fun _ _ => .error ()⟩
      (str "A2") (str "any pharmacy nearby?")
      ⟨str "pharmacy", str "pharmacies"⟩
      (by decide) (by decide) (Or.inl (by decide)) (by decide) (by decide)).2.1
    ⟨str "A2", str "1.23", str "4.56"⟩ (by decide) (by decide) (by decide) rfl

/-- The pipeline reaches stage 4 (the FAQ semantic match) whenever no place
stage fires. -/
theorem chat_reaches_stage4 (env : Env) (apt message : List Char)
    (ha : apt ≠ []) (hm : message ≠ [])
    (h1 : detectNearestCategoryIntent message = none ∨
      ∃ i, detectNearestCategoryIntent message = some i ∧
        getNearestFromLocalGuide env.guide apt i.category = none)
    (h2 : findLocalGuidePlace env.guide apt message = none)
    (h3 : detectNearbyIntent env.guide message = none) :
    ∀ o : Oracles, chatHandler env o apt message =
      chatStage4 env o apt message (detectLanguage o) := by
  intro o
  rw [chat_reaches_stage3 env apt message ha hm h1 h2 o, chatStage3, h3]

/-- C3: with no place intent fired, the FAQ stage decides the reply: a best
match at or above the threshold terminates with source faq and the matched
answer (translated); below the threshold (or with no match at all) the
generative fallback decides between llm_fallback and the canned fallback; and
the generative call only sees the top three matches as context. -/
theorem faq_threshold_routing (env : Env) (o : Oracles)
    (apt message : List Char)
    (ha : apt ≠ []) (hm : message ≠ [])
    (h1 : detectNearestCategoryIntent message = none ∨
      ∃ i, detectNearestCategoryIntent message = some i ∧
        getNearestFromLocalGuide env.guide apt i.category = none)
    (h2 : findLocalGuidePlace env.guide apt message = none)
    (h3 : detectNearbyIntent env.guide message = none) :
    (∀ b, (findBestMatches o env.globalFaqs (env.faqForApt apt) message 5).head? = some b →
      env.embThreshold ≤ b.score →
      chatHandler env o apt message =
        ⟨200, applyLang o (detectLanguage o) b.answer, str "faq", detectLanguage o,
          some b.score,
          (findBestMatches o env.globalFaqs (env.faqForApt apt) message 5).take 3, none⟩)
    ∧ (callLLMFallback o message
        (findBestMatches o env.globalFaqs (env.faqForApt apt) message 5)
        (detectLanguage o) =
       callLLMFallback o message
        ((findBestMatches o env.globalFaqs (env.faqForApt apt) message 5).take 3)
        (detectLanguage o))
    ∧ (∀ bs,
        ((findBestMatches o env.globalFaqs (env.faqForApt apt) message 5).head? = none
           ∧ bs = 0) ∨
        (∃ b, (findBestMatches o env.globalFaqs (env.faqForApt apt) message 5).head? = some b
           ∧ b.score < env.embThreshold ∧ bs = b.score) →
        (∀ t, callLLMFallback o message
            (findBestMatches o env.globalFaqs (env.faqForApt apt) message 5)
            (detectLanguage o) = some t → t ≠ [] →
          chatHandler env o apt message =
            ⟨200, t, str "llm_fallback", detectLanguage o, some bs,
              (findBestMatches o env.globalFaqs (env.faqForApt apt) message 5).take 3,
              none⟩)
        ∧ (callLLMFallback o message
            (findBestMatches o env.globalFaqs (env.faqForApt apt) message 5)
            (detectLanguage o) = none ∨
           callLLMFallback o message
            (findBestMatches o env.globalFaqs (env.faqForApt apt) message 5)
            (detectLanguage o) = some [] →
          chatHandler env o apt message =
            ⟨200, applyLang o (detectLanguage o) cannedFallbackText, str "fallback",
              detectLanguage o, some bs,
              (findBestMatches o env.globalFaqs (env.faqForApt apt) message 5).take 3,
              none⟩)) := by
  have hreach := chat_reaches_stage4 env apt message ha hm h1 h2 h3 o
  refine ⟨?_, ?_, ?_⟩
  · intro b hb hθ
    rw [hreach]
    simp only [chatStage4, hb]
    rw [if_pos hθ]
  · simp only [callLLMFallback, llmUserPrompt, List.take_take, min_self]
  · intro bs hbs
    have hstage5 : chatHandler env o apt message =
        chatStage5 o message (detectLanguage o)
          (findBestMatches o env.globalFaqs (env.faqForApt apt) message 5) bs := by
      rw [hreach]
      rcases hbs with ⟨hb, hbs0⟩ | ⟨b, hb, hθ, hbs0⟩
      · simp only [chatStage4, hb]
        rw [hbs0]
      · simp only [chatStage4, hb]
        rw [if_neg (not_le.2 hθ), hbs0]
    constructor
    · intro t hllm hne
      rw [hstage5]
      simp only [chatStage5, hllm]
      rw [if_pos hne]
    · intro hllm
      rw [hstage5]
      rcases hllm with hllm | hllm
      · simp only [chatStage5, hllm]
      · simp only [chatStage5, hllm]
        simp

/-- Witness for C3: one cached FAQ embedding identical to the returned user
embedding scores its cosine similarity above a 0.5 threshold, so the request
terminates with source faq and the stored answer. -/
theorem faq_threshold_routing_witness :
    chatHandler
      ⟨[], [], fun _ => [⟨str "What is checkout time?", str "11am", [], some [1]⟩],
        [], 0.5⟩
      ⟨.ok (str "en"), fun _ _ => .error (), fun _ => .ok [1],
        fun _ _ _ => .error (), fun _ _ => .error ()⟩
      (str "A1") (str "when do we have to check out") =
      ⟨200,
        applyLang
          ⟨.ok (str "en"), fun _ _ => .error (), fun _ => .ok [1],
            fun _ _ _ => .error (), fun _ _ => .error ()⟩
          (detectLanguage
            ⟨.ok (str "en"), fun _ _ => .error (), fun _ => .ok [1],
              fun _ _ _ => .error (), fun _ _ => .error ()⟩)
          (str "11am"),
        str "faq",
        detectLanguage
          ⟨.ok (str "en"), fun _ _ => .error (), fun _ => .ok [1],
            fun _ _ _ => .error (), fun _ _ => .error ()⟩,
        some (cosineSimilarity (some [1]) (some [1])),
        [⟨str "What is checkout time?", str "11am", [],
          cosineSimilarity (some [1]) (some [1])⟩], none⟩ :=
  (faq_threshold_routing
      ⟨[], [], fun _ => [⟨str "What is checkout time?", str "11am", [], some [1]⟩],
        [], 0.5⟩
      ⟨.ok (str "en"), fun _ _ => .error (), fun _ => .ok [1],
        fun _ _ _ => .error (), fun _ _ => .error ()⟩
      (str "A1") (str "when do we have to check out")
      (by decide) (by decide) (Or.inl (by decide)) (by decide) (by decide)).1
    ⟨str "What is checkout time?", str "11am", [],
      cosineSimilarity (some [1]) (some [1])⟩
    rfl
    (by
      rw [cosineSimilarity, if_pos rfl]
      have h1 : sqL [1] = 1 := by norm_num [sqL]
      have h2 : dotL [1] [1] = 1 := by norm_num [dotL]
      rw [h1, h2, Real.sqrt_one]
      norm_num)

/-- C7: an embedding failure for the user message empties the match list and
the request still reaches the generative fallback (never an error status),
while an embedding failure for one uncached candidate only removes that
candidate from the ranking. -/
theorem embedding_failure_tolerance :
    (∀ (o : Oracles) (g a : List FaqEntry) (m : List Char) (k : Nat),
      o.embed m = .error () → findBestMatches o g a m k = [])
    ∧ (∀ (env : Env) (o : Oracles) (apt message : List Char),
      apt ≠ [] → message ≠ [] →
      (detectNearestCategoryIntent message = none ∨
        ∃ i, detectNearestCategoryIntent message = some i ∧
          getNearestFromLocalGuide env.guide apt i.category = none) →
      findLocalGuidePlace env.guide apt message = none →
      detectNearbyIntent env.guide message = none →
      o.embed message = .error () →
      (chatHandler env o apt message).status = 200 ∧
      (chatHandler env o apt message).matchList = [] ∧
      ((chatHandler env o apt message).source = str "llm_fallback" ∨
       (chatHandler env o apt message).source = str "fallback"))
    ∧ (∀ (o : Oracles) (g l₁ l₂ : List FaqEntry) (c : FaqEntry)
        (m : List Char) (k : Nat),
      c.emb = none → o.embed c.question = .error () →
      findBestMatches o g (l₁ ++ c :: l₂) m k =
        findBestMatches o g (l₁ ++ l₂) m k) := by
  have huser : ∀ (o : Oracles) (g a : List FaqEntry) (m : List Char) (k : Nat),
      o.embed m = .error () → findBestMatches o g a m k = [] := by
    intro o g a m k h
    simp [findBestMatches, h]
  refine ⟨huser, ?_, ?_⟩
  · intro env o apt message ha hm h1 h2 h3 hfail
    rw [chat_reaches_stage4 env apt message ha hm h1 h2 h3 o]
    simp only [chatStage4, huser o env.globalFaqs (env.faqForApt apt) message 5 hfail,
      List.head?_nil]
    cases hllm : callLLMFallback o message [] (detectLanguage o) with
    | none => simp [chatStage5, hllm]
    | some t =>
      by_cases hne : t = []
      · subst hne; simp [chatStage5, hllm]
      · simp [chatStage5, hllm, hne]
  · intro o g l₁ l₂ c m k hc hf
    have hskip : effEmb o c = none := by rw [effEmb, hc, hf]; rfl
    cases hembed : o.embed m with
    | error e => simp [findBestMatches, hembed]
    | ok u =>
      by_cases hE : l₁ = [] ∧ l₂ = [] ∧ g = []
      · obtain ⟨e1, e2, e3⟩ := hE
        subst e1; subst e2; subst e3
        simp [findBestMatches, hembed, hskip, sortScoredDesc]
      · have hne : ((l₁ ++ l₂) ++ g) ≠ [] := by
          intro h
          rcases List.append_eq_nil.1 h with ⟨h12, hg⟩
          rcases List.append_eq_nil.1 h12 with ⟨ha1, ha2⟩
          exact hE ⟨ha1, ha2, hg⟩
        simp only [findBestMatches, hembed, List.filterMap_append,
          List.filterMap_cons, hskip, List.isEmpty_eq_true, List.append_eq_nil,
          List.cons_ne_nil, and_false, false_and, if_false]
        rw [if_neg (by simpa using hne)]

/-- Witness for C7: with the embedding oracle failing, a plain question ends
at the canned fallback with an empty match list and status 200. -/
theorem embedding_failure_tolerance_witness :
    (chatHandler ⟨[], [], fun _ => [⟨str "q", str "a", [], none⟩], [], 0⟩
      ⟨.ok (str "en"), fun _ _ => .error (), fun _ => .error (),
        fun _ _ _ => .error (), fun _ _ => .error ()⟩
      (str "A1") (str "hello there")).status = 200
    ∧ (chatHandler ⟨[], [], fun _ => [⟨str "q", str "a", [], none⟩], [], 0⟩
      ⟨.ok (str "en"), fun _ _ => .error (), fun _ => .error (),
        fun _ _ _ => .error (), fun _ _ => .error ()⟩
      (str "A1") (str "hello there")).matchList = []
    ∧ ((chatHandler ⟨[], [], fun _ => [⟨str "q", str "a", [], none⟩], [], 0⟩
      ⟨.ok (str "en"), fun _ _ => .error (), fun _ => .error (),
        fun _ _ _ => .error (), fun _ _ => .error ()⟩
      (str "A1") (str "hello there")).source = str "llm_fallback" ∨
      (chatHandler ⟨[], [], fun _ => [⟨str "q", str "a", [], none⟩], [], 0⟩
      ⟨.ok (str "en"), fun _ _ => .error (), fun _ => .error (),
        fun _ _ _ => .error (), fun _ _ => .error ()⟩
      (str "A1") (str "hello there")).source = str "fallback") :=
  embedding_failure_tolerance.2.1
    ⟨[], [], fun _ => [⟨str "q", str "a", [], none⟩], [], 0⟩
    ⟨.ok (str "en"), fun _ _ => .error (), fun _ => .error (),
      fun _ _ _ => .error (), fun _ _ => .error ()⟩
    (str "A1") (str "hello there")
    (by decide) (by decide) (Or.inl (by decide)) (by decide) (by decide) rfl

theorem sqL_nonneg (a : List ℝ) : 0 ≤ sqL a := by
  induction a with
  | nil => simp [sqL]
  | cons x t ih =>
    simp only [sqL, List.map_cons, List.sum_cons]
    exact add_nonneg (mul_self_nonneg x) ih

theorem cs_quad (a : List ℝ) : ∀ b : List ℝ, a.length = b.length → ∀ t : ℝ,
    (List.zipWith (fun x y => (x * t + y) * (x * t + y)) a b).sum
      = sqL a * (t * t) + 2 * dotL a b * t + sqL b := by
  induction a with
  | nil =>
    intro b hb t
    cases b with
    | nil => simp [sqL, dotL]
    | cons y bt => simp at hb
  | cons x at_ ih =>
    intro b hb t
    cases b with
    | nil => simp at hb
    | cons y bt =>
      simp only [List.length_cons, Nat.succ.injEq] at hb
      simp only [List.zipWith_cons_cons, List.sum_cons, sqL, dotL,
        List.map_cons] at ih ⊢
      rw [ih bt hb t]
      ring

theorem cs_nonneg (a : List ℝ) : ∀ (b : List ℝ) (t : ℝ),
    0 ≤ (List.zipWith (fun x y => (x * t + y) * (x * t + y)) a b).sum := by
  induction a with
  | nil => intro b t; simp
  | cons x at_ ih =>
    intro b t
    cases b with
    | nil => simp
    | cons y bt =>
      simp only [List.zipWith_cons_cons, List.sum_cons]
      exact add_nonneg (mul_self_nonneg _) (ih bt t)

theorem cauchy_schwarz_list (a b : List ℝ) (h : a.length = b.length) :
    dotL a b * dotL a b ≤ sqL a * sqL b := by
  have hd := discrim_le_zero (a := sqL a) (b := 2 * dotL a b) (c := sqL b)
    (fun t => by rw [← cs_quad a b h t]; exact cs_nonneg a b t)
  rw [discrim] at hd
  nlinarith [hd]

theorem abs_dot_le (a b : List ℝ) (h : a.length = b.length) :
    |dotL a b| ≤ Real.sqrt (sqL a) * Real.sqrt (sqL b) := by
  have h1 := sqL_nonneg a
  have h2 := sqL_nonneg b
  have hsq : dotL a b ^ 2 ≤ sqL a * sqL b := by
    have := cauchy_schwarz_list a b h
    nlinarith [this]
  calc |dotL a b| = Real.sqrt (dotL a b ^ 2) := (Real.sqrt_sq_eq_abs _).symm
    _ ≤ Real.sqrt (sqL a * sqL b) := Real.sqrt_le_sqrt hsq
    _ = Real.sqrt (sqL a) * Real.sqrt (sqL b) := Real.sqrt_mul h1 _

theorem cosine_bounds_pair (x y : Option (List ℝ)) :
    -1 ≤ cosineSimilarity x y ∧ cosineSimilarity x y ≤ 1 := by
  cases x with
  | none => cases y <;> simp [cosineSimilarity]
  | some a =>
    cases y with
    | none => simp [cosineSimilarity]
    | some b =>
      rw [cosineSimilarity]
      by_cases h : a.length = b.length
      · rw [if_pos h]
        have h1 := sqL_nonneg a
        have h2 := sqL_nonneg b
        have hs1 := Real.sqrt_nonneg (sqL a)
        have hs2 := Real.sqrt_nonneg (sqL b)
        have hd : (0 : ℝ) < Real.sqrt (sqL a) * Real.sqrt (sqL b) + 1e-12 := by
          have : (0 : ℝ) ≤ Real.sqrt (sqL a) * Real.sqrt (sqL b) :=
            mul_nonneg hs1 hs2
          norm_num
          linarith
        have habs : |dotL a b| ≤ Real.sqrt (sqL a) * Real.sqrt (sqL b) + 1e-12 := by
          have := abs_dot_le a b h
          norm_num
          linarith
        have : |dotL a b / (Real.sqrt (sqL a) * Real.sqrt (sqL b) + 1e-12)| ≤ 1 := by
          rw [abs_div, abs_of_pos hd]
          exact (div_le_one hd).2 habs
        exact abs_le.1 this
      · rw [if_neg h]; norm_num

open Classical in
theorem mem_insertScored {z x : Scored} {l : List Scored}
    (h : z ∈ insertScored x l) : z = x ∨ z ∈ l := by
  induction l with
  | nil => simp [insertScored] at h; simp [h]
  | cons y t ih =>
    rw [insertScored] at h
    split at h
    · rcases List.mem_cons.1 h with h | h
      · exact Or.inl h
      · exact Or.inr h
    · rcases List.mem_cons.1 h with h | h
      · exact Or.inr (by simp [h])
      · rcases ih h with h | h
        · exact Or.inl h
        · exact Or.inr (List.mem_cons_of_mem _ h)

theorem mem_sortScoredDesc {z : Scored} {l : List Scored}
    (h : z ∈ sortScoredDesc l) : z ∈ l := by
  induction l with
  | nil => simp [sortScoredDesc] at h
  | cons x t ih =>
    have : sortScoredDesc (x :: t) = insertScored x (sortScoredDesc t) := rfl
    rw [this] at h
    rcases mem_insertScored h with h | h
    · simp [h]
    · exact List.mem_cons_of_mem _ (ih h)

/-- C8: cosineSimilarity is 0 on an absent vector or a length mismatch, is
the dot product over the product of norms plus 1e-12 on matching lengths,
always lies in the interval from -1 to 1, and therefore every score
findBestMatches returns lies in that interval. -/
theorem cosine_similarity_bounds :
    (∀ x : Option (List ℝ), cosineSimilarity none x = 0 ∧ cosineSimilarity x none = 0)
    ∧ (∀ a b : List ℝ, a.length ≠ b.length → cosineSimilarity (some a) (some b) = 0)
    ∧ (∀ a b : List ℝ, a.length = b.length →
        cosineSimilarity (some a) (some b)
          = dotL a b / (Real.sqrt (sqL a) * Real.sqrt (sqL b) + 1e-12))
    ∧ (∀ x y : Option (List ℝ), -1 ≤ cosineSimilarity x y ∧ cosineSimilarity x y ≤ 1)
    ∧ (∀ (o : Oracles) (g a : List FaqEntry) (m : List Char) (k : Nat)
        (s : Scored), s ∈ findBestMatches o g a m k →
        -1 ≤ s.score ∧ s.score ≤ 1) := by
  refine ⟨?_, ?_, ?_, cosine_bounds_pair, ?_⟩
  · intro x
    cases x <;> exact ⟨rfl, rfl⟩
  · intro a b h
    rw [cosineSimilarity, if_neg h]
  · intro a b h
    rw [cosineSimilarity, if_pos h]
  · intro o g a m k s hs
    rw [findBestMatches] at hs
    by_cases hE : (a ++ g).isEmpty
    · rw [if_pos hE] at hs
      simp at hs
    · rw [if_neg hE] at hs
      cases hembed : o.embed m with
      | error e => rw [hembed] at hs; simp at hs
      | ok u =>
        rw [hembed] at hs
        dsimp only at hs
        have hs2 := mem_sortScoredDesc (List.mem_of_mem_take hs)
        rcases List.mem_filterMap.1 hs2 with ⟨f, _, hf⟩
        cases heff : effEmb o f with
        | none => rw [heff] at hf; simp at hf
        | some e =>
          rw [heff] at hf
          dsimp only at hf
          have : s.score = cosineSimilarity (some u) (some e) := by
            rw [← Option.some.injEq] at hf
            simp at hf
            rw [← hf]
          rw [this]
          exact cosine_bounds_pair _ _

/-- Witness for C8: a concrete score of a returned match is bounded. -/
theorem cosine_similarity_bounds_witness :
    -1 ≤ (Scored.mk (str "q") (str "a") [] (cosineSimilarity (some [1]) (some [1]))).score
    ∧ (Scored.mk (str "q") (str "a") [] (cosineSimilarity (some [1]) (some [1]))).score ≤ 1 :=
  cosine_similarity_bounds.2.2.2.2
    ⟨.ok (str "en"), fun _ _ => .error (), fun _ => .ok [1],
      fun _ _ _ => .error (), fun _ _ => .error ()⟩
    [] [⟨str "q", str "a", [], some [1]⟩] (str "m") 5
    ⟨str "q", str "a", [], cosineSimilarity (some [1]) (some [1])⟩
    (by rw [findBestMatches]; exact List.mem_singleton.2 rfl)

/-- Membership in the scored candidate list of findLocalGuidePlace. -/
theorem mem_lgScored {guide : List Row} {aptId : List Char} {msgN : List Char}
    {dir : Bool} {m : Row × Nat} :
    m ∈ (lgCandidates guide aptId).filterMap
      (fun r => if normL r.name = [] then none else some (r, scoreLG msgN dir r)) ↔
    m.1 ∈ lgCandidates guide aptId ∧ normL m.1.name ≠ [] ∧
      m.2 = scoreLG msgN dir m.1 := by
  constructor
  · intro h
    rcases List.mem_filterMap.1 h with ⟨r, hr, hf⟩
    by_cases hn : normL r.name = []
    · rw [if_pos hn] at hf; simp at hf
    · rw [if_neg hn] at hf
      have : m = (r, scoreLG msgN dir r) := by simpa using hf.symm
      subst this
      exact ⟨hr, hn, rfl⟩
  · rintro ⟨h1, h2, h3⟩
    refine List.mem_filterMap.2 ⟨m.1, h1, ?_⟩
    rw [if_neg h2, ← h3]

/-- The containment bound of the local-place score. -/
theorem scoreLG_contains (msgN : List Char) (dir : Bool) (r : Row)
    (h : containsL msgN (normL r.name) = true) :
    100 + (normL r.name).length ≤ scoreLG msgN dir r := by
  rw [scoreLG]
  rw [if_pos h]
  omega

/-- C4: findLocalGuidePlace returns a candidate exactly when a scored
candidate reaches the floor of 30, the returned row maximises the heuristic
score, and a candidate whose full normalised name occurs in the message
scores at least 100 plus the name length, hence forces a result whose score
is at least its own. -/
theorem local_place_matcher_floor (guide : List Row) (aptId message : List Char) :
    (∀ r, findLocalGuidePlace guide aptId message = some r →
      r ∈ lgCandidates guide aptId ∧ normL r.name ≠ [] ∧
      30 ≤ scoreLG (normL message) (isDirectionsQuestion message) r ∧
      ∀ r' ∈ lgCandidates guide aptId, normL r'.name ≠ [] →
        scoreLG (normL message) (isDirectionsQuestion message) r' ≤
          scoreLG (normL message) (isDirectionsQuestion message) r)
    ∧ (findLocalGuidePlace guide aptId message = none ↔
        ∀ r ∈ lgCandidates guide aptId, normL r.name ≠ [] →
          scoreLG (normL message) (isDirectionsQuestion message) r < 30)
    ∧ (∀ r ∈ lgCandidates guide aptId, normL r.name ≠ [] →
        containsL (normL message) (normL r.name) = true →
        100 + (normL r.name).length ≤
          scoreLG (normL message) (isDirectionsQuestion message) r ∧
        ∃ w, findLocalGuidePlace guide aptId message = some w ∧
          scoreLG (normL message) (isDirectionsQuestion message) r ≤
            scoreLG (normL message) (isDirectionsQuestion message) w) := by
  constructor
  · intro r h
    rw [findLocalGuidePlace] at h
    cases hmax : maxFirst ((lgCandidates guide aptId).filterMap
        (fun r => if normL r.name = [] then none
          else some (r, scoreLG (normL message) (isDirectionsQuestion message) r))) with
    | none => rw [hmax] at h; simp at h
    | some m =>
      rw [hmax] at h
      dsimp only at h
      by_cases hfloor : 30 ≤ m.2
      · rw [if_pos hfloor] at h
        have hrm : r = m.1 := by simpa using h.symm
        subst hrm
        have hmem := mem_lgScored.1 (maxFirst_mem hmax)
        refine ⟨hmem.1, hmem.2.1, ?_, ?_⟩
        · rw [← hmem.2.2]; exact hfloor
        · intro r' hr' hn'
          have hin : (r', scoreLG (normL message) (isDirectionsQuestion message) r')
              ∈ (lgCandidates guide aptId).filterMap
                (fun r => if normL r.name = [] then none
                  else some (r, scoreLG (normL message) (isDirectionsQuestion message) r)) :=
            mem_lgScored.2 ⟨hr', hn', rfl⟩
          have := maxFirst_max hmax _ hin
          rw [← hmem.2.2]
          exact this
      · rw [if_neg hfloor] at h; simp at h
  constructor
  · constructor
    · intro h r hr hn
      rw [findLocalGuidePlace] at h
      cases hmax : maxFirst ((lgCandidates guide aptId).filterMap
          (fun r => if normL r.name = [] then none
            else some (r, scoreLG (normL message) (isDirectionsQuestion message) r))) with
      | none =>
        exfalso
        have hin : (r, scoreLG (normL message) (isDirectionsQuestion message) r)
            ∈ (lgCandidates guide aptId).filterMap
              (fun r => if normL r.name = [] then none
                else some (r, scoreLG (normL message) (isDirectionsQuestion message) r)) :=
          mem_lgScored.2 ⟨hr, hn, rfl⟩
        rw [maxFirst_eq_none hmax] at hin
        simp at hin
      | some m =>
        rw [hmax] at h
        dsimp only at h
        by_cases hfloor : 30 ≤ m.2
        · rw [if_pos hfloor] at h; simp at h
        · have hin : (r, scoreLG (normL message) (isDirectionsQuestion message) r)
              ∈ (lgCandidates guide aptId).filterMap
                (fun r => if normL r.name = [] then none
                  else some (r, scoreLG (normL message) (isDirectionsQuestion message) r)) :=
            mem_lgScored.2 ⟨hr, hn, rfl⟩
          have := maxFirst_max hmax _ hin
          omega
    · intro hall
      rw [findLocalGuidePlace]
      cases hmax : maxFirst ((lgCandidates guide aptId).filterMap
          (fun r => if normL r.name = [] then none
            else some (r, scoreLG (normL message) (isDirectionsQuestion message) r))) with
      | none => rfl
      | some m =>
        dsimp only
        have hmem := mem_lgScored.1 (maxFirst_mem hmax)
        have hlt := hall m.1 hmem.1 hmem.2.1
        rw [if_neg (by omega)]
  · intro r hr hn hc
    have hbound := scoreLG_contains (normL message) (isDirectionsQuestion message) r hc
    refine ⟨hbound, ?_⟩
    have hin : (r, scoreLG (normL message) (isDirectionsQuestion message) r)
        ∈ (lgCandidates guide aptId).filterMap
          (fun r => if normL r.name = [] then none
            else some (r, scoreLG (normL message) (isDirectionsQuestion message) r)) :=
      mem_lgScored.2 ⟨hr, hn, rfl⟩
    rcases maxFirst_isSome (l := (lgCandidates guide aptId).filterMap
        (fun r => if normL r.name = [] then none
          else some (r, scoreLG (normL message) (isDirectionsQuestion message) r)))
        (by intro h; rw [h] at hin; simp at hin) with ⟨m, hmax⟩
    have hmem := mem_lgScored.1 (maxFirst_mem hmax)
    have hmx := maxFirst_max hmax _ hin
    refine ⟨m.1, ?_, ?_⟩
    · rw [findLocalGuidePlace]
      rw [hmax]
      dsimp only
      rw [if_pos (by omega)]
    · rw [← hmem.2.2]; exact hmx

/-- Witness for C4: a message containing the full name City Pharmacy makes
that row score at least 113 and forces a returned row of at least that
score. -/
theorem local_place_matcher_floor_witness :
    100 + (normL (str "City Pharmacy")).length ≤
      scoreLG (normL (str "which way to City Pharmacy please"))
        (isDirectionsQuestion (str "which way to City Pharmacy please"))
        ⟨str "A1", str "", str "City Pharmacy", str "300 m", str "", str ""⟩
    ∧ ∃ w, findLocalGuidePlace
        [⟨str "A1", str "", str "City Pharmacy", str "300 m", str "", str ""⟩]
        (str "A1") (str "which way to City Pharmacy please") = some w ∧
        scoreLG (normL (str "which way to City Pharmacy please"))
          (isDirectionsQuestion (str "which way to City Pharmacy please"))
          ⟨str "A1", str "", str "City Pharmacy", str "300 m", str "", str ""⟩ ≤
        scoreLG (normL (str "which way to City Pharmacy please"))
          (isDirectionsQuestion (str "which way to City Pharmacy please")) w :=
  (local_place_matcher_floor
      [⟨str "A1", str "", str "City Pharmacy", str "300 m", str "", str ""⟩]
      (str "A1") (str "which way to City Pharmacy please")).2.2
    ⟨str "A1", str "", str "City Pharmacy", str "300 m", str "", str ""⟩
    (by decide) (by decide) (by decide)

/-- C5: detectNearbyIntent yields none on a directions question or when the
normalised message contains the nonempty normalised name of any loaded row of
any apartment; otherwise it is the first-match-wins keyword cascade over the
raw lowercase message, mapping the six keyword groups to the six place types
and yielding none when no keyword occurs. -/
theorem generic_nearby_classifier (guide : List Row) (message : List Char) :
    (isDirectionsQuestion message = true → detectNearbyIntent guide message = none)
    ∧ ((∃ r ∈ guide, normL r.name ≠ [] ∧
          containsL (normL message) (normL r.name) = true) →
        detectNearbyIntent guide message = none)
    ∧ (isDirectionsQuestion message = false →
      (¬ ∃ r ∈ guide, normL r.name ≠ [] ∧
          containsL (normL message) (normL r.name) = true) →
      detectNearbyIntent guide message =
        (if containsL (lowerL message) (str "restaurant") = true ∨
            containsL (lowerL message) (str "eat") = true ∨
            containsL (lowerL message) (str "dinner") = true ∨
            containsL (lowerL message) (str "lunch") = true ∨
            containsL (lowerL message) (str "breakfast") = true then
          some ⟨str "restaurant", str "restaurants"⟩
        else if containsL (lowerL message) (str "cafe") = true ∨
            containsL (lowerL message) (str "coffee") = true then
          some ⟨str "cafe", str "cafés"⟩
        else if containsL (lowerL message) (str "atm") = true ∨
            containsL (lowerL message) (str "cash") = true then
          some ⟨str "atm", str "ATMs"⟩
        else if containsL (lowerL message) (str "pharmacy") = true ∨
            containsL (lowerL message) (str "chemist") = true ∨
            containsL (lowerL message) (str "medicine") = true then
          some ⟨str "pharmacy", str "pharmacies"⟩
        else if containsL (lowerL message) (str "supermarket") = true ∨
            containsL (lowerL message) (str "grocery") = true ∨
            containsL (lowerL message) (str "groceries") = true then
          some ⟨str "supermarket", str "supermarkets"⟩
        else if containsL (lowerL message) (str "attraction") = true ∨
            containsL (lowerL message) (str "things to do") = true ∨
            containsL (lowerL message) (str "tourist") = true ∨
            containsL (lowerL message) (str "visit") = true then
          some ⟨str "tourist_attraction", str "attractions"⟩
        else none)) := by
  have hnamed_bool : ∀ h : ∃ r ∈ guide, normL r.name ≠ [] ∧
      containsL (normL message) (normL r.name) = true,
      (guide.any fun r =>
        !(normL r.name).isEmpty && containsL (normL message) (normL r.name)) = true := by
    rintro ⟨r, hr, hn, hc⟩
    refine List.any_eq_true.2 ⟨r, hr, ?_⟩
    rw [Bool.and_eq_true, hc]
    refine ⟨?_, rfl⟩
    simp [List.isEmpty_eq_true, hn]
  refine ⟨?_, ?_, ?_⟩
  · intro h
    simp [detectNearbyIntent, h]
  · intro h
    by_cases hdir : isDirectionsQuestion message
    · simp [detectNearbyIntent, hdir]
    · simp [detectNearbyIntent, hdir, hnamed_bool h]
  · intro hdir hnot
    have hany : (guide.any fun r =>
        !(normL r.name).isEmpty && containsL (normL message) (normL r.name)) = false := by
      rw [Bool.eq_false_iff]
      intro hcon
      rcases List.any_eq_true.1 hcon with ⟨r, hr, hp⟩
      rw [Bool.and_eq_true] at hp
      exact hnot ⟨r, hr, by simpa [List.isEmpty_eq_true] using hp.1, hp.2⟩
    rw [detectNearbyIntent]
    rw [if_neg (by simp [hdir])]
    dsimp only
    rw [hany]
    simp only [Bool.false_eq_true, if_false, Bool.or_eq_true, or_assoc]

/-- Witness for C5: with an empty guide and no directions phrasing, an eating
question maps to the restaurant place type. -/
theorem generic_nearby_classifier_witness :
    detectNearbyIntent [] (str "where can we have dinner tonight?") =
      (if containsL (lowerL (str "where can we have dinner tonight?")) (str "restaurant") = true ∨
          containsL (lowerL (str "where can we have dinner tonight?")) (str "eat") = true ∨
          containsL (lowerL (str "where can we have dinner tonight?")) (str "dinner") = true ∨
          containsL (lowerL (str "where can we have dinner tonight?")) (str "lunch") = true ∨
          containsL (lowerL (str "where can we have dinner tonight?")) (str "breakfast") = true then
        some ⟨str "restaurant", str "restaurants"⟩
      else if containsL (lowerL (str "where can we have dinner tonight?")) (str "cafe") = true ∨
          containsL (lowerL (str "where can we have dinner tonight?")) (str "coffee") = true then
        some ⟨str "cafe", str "cafés"⟩
      else if containsL (lowerL (str "where can we have dinner tonight?")) (str "atm") = true ∨
          containsL (lowerL (str "where can we have dinner tonight?")) (str "cash") = true then
        some ⟨str "atm", str "ATMs"⟩
      else if containsL (lowerL (str "where can we have dinner tonight?")) (str "pharmacy") = true ∨
          containsL (lowerL (str "where can we have dinner tonight?")) (str "chemist") = true ∨
          containsL (lowerL (str "where can we have dinner tonight?")) (str "medicine") = true then
        some ⟨str "pharmacy", str "pharmacies"⟩
      else if containsL (lowerL (str "where can we have dinner tonight?")) (str "supermarket") = true ∨
          containsL (lowerL (str "where can we have dinner tonight?")) (str "grocery") = true ∨
          containsL (lowerL (str "where can we have dinner tonight?")) (str "groceries") = true then
        some ⟨str "supermarket", str "supermarkets"⟩
      else if containsL (lowerL (str "where can we have dinner tonight?")) (str "attraction") = true ∨
          containsL (lowerL (str "where can we have dinner tonight?")) (str "things to do") = true ∨
          containsL (lowerL (str "where can we have dinner tonight?")) (str "tourist") = true ∨
          containsL (lowerL (str "where can we have dinner tonight?")) (str "visit") = true then
        some ⟨str "tourist_attraction", str "attractions"⟩
      else none) :=
  (generic_nearby_classifier [] (str "where can we have dinner tonight?")).2.2
    (by decide) (by decide)

/-! ## Lemmas on the distance scanner -/

theorem lowerChar_digitDot {c : Char} (h : isDigitDotChar c = true) :
    lowerChar c = c := by
  rw [isDigitDotChar, Bool.or_eq_true] at h
  rw [lowerChar]
  rcases h with h | h
  · rw [isDigitChar, Bool.and_eq_true] at h
    have h9 : c ≤ '9' := of_decide_eq_true h.2
    refine if_neg ?_
    rintro ⟨hA, _⟩
    exact absurd (le_trans hA h9) (by decide)
  · have hc : c = '.' := by simpa using h
    subst hc
    decide

theorem isWsChar_digitDot {c : Char} (h : isDigitDotChar c = true) :
    isWsChar c = false := by
  by_contra hw
  rw [Bool.not_eq_false, isWsChar] at hw
  simp only [Bool.or_eq_true, beq_iff_eq] at hw
  rcases hw with ((rfl | rfl) | rfl) | rfl <;> exact absurd h (by decide)

theorem lowerL_fixed {l : List Char} (h : ∀ c ∈ l, lowerChar c = c) :
    lowerL l = l := by
  induction l with
  | nil => rfl
  | cons c t ih =>
    rw [lowerL, List.map_cons, h c (by simp)]
    have := ih fun d hd => h d (by simp [hd])
    rw [lowerL] at this
    rw [this]

theorem trimL_noop {l : List Char}
    (h1 : ∀ c, l.head? = some c → isWsChar c = false)
    (h2 : ∀ c, l.getLast? = some c → isWsChar c = false) : trimL l = l := by
  cases l with
  | nil => rfl
  | cons c t =>
    have hdw : List.dropWhile isWsChar (c :: t) = c :: t := by
      rw [List.dropWhile_cons, if_neg (by rw [h1 c rfl]; simp)]
    cases hrev : (c :: t).reverse with
    | nil => simp at hrev
    | cons d r =>
      have hd : (c :: t).getLast? = some d := by
        rw [← List.head?_reverse, hrev]; rfl
      have hdw2 : List.dropWhile isWsChar (d :: r) = d :: r := by
        rw [List.dropWhile_cons, if_neg (by rw [h2 d hd]; simp)]
      rw [trimL, hdw, hrev, hdw2, ← hrev, List.reverse_reverse]

theorem takeWhile_append_of (p : Char → Bool) (n rest : List Char)
    (hn : ∀ c ∈ n, p c = true)
    (hr : ∀ d, rest.head? = some d → p d = false) :
    (n ++ rest).takeWhile p = n := by
  induction n with
  | nil =>
    cases rest with
    | nil => rfl
    | cons d r =>
      simp only [List.nil_append, List.takeWhile_cons, hr d rfl]
      simp
  | cons c t ih =>
    simp only [List.cons_append, List.takeWhile_cons, hn c (by simp)]
    rw [ih fun d hd => hn d (by simp [hd])]
    simp

theorem tryNumLit_append (lit n rest : List Char)
    (hdd : ∀ c ∈ n, isDigitDotChar c = true)
    (hhd : ∀ d, rest.head? = some d → isDigitDotChar d = false) :
    tryNumLit lit (n ++ rest) =
      if startsWithL (rest.dropWhile isWsChar) lit = true ∧ n ≠ []
      then some n else none := by
  rw [tryNumLit]
  rw [takeWhile_append_of _ n rest hdd hhd, List.drop_left]
  cases n with
  | nil => simp
  | cons c t =>
    rw [if_neg (by simp)]
    by_cases hcnd : startsWithL (rest.dropWhile isWsChar) lit = true
    · rw [if_pos hcnd, if_pos ⟨hcnd, by simp⟩]
    · rw [if_neg hcnd, if_neg (by rintro ⟨h, _⟩; exact hcnd h)]

theorem searchNumLit_append (lit n rest : List Char)
    (hdd : ∀ c ∈ n, isDigitDotChar c = true)
    (hhd : ∀ d, rest.head? = some d → isDigitDotChar d = false) :
    searchNumLit lit (n ++ rest) =
      if startsWithL (rest.dropWhile isWsChar) lit = true ∧ n ≠ []
      then some n else searchNumLit lit rest := by
  induction n with
  | nil => simp
  | cons c t ih =>
    have htry := tryNumLit_append lit (c :: t) rest hdd hhd
    rw [List.cons_append, searchNumLit, ← List.cons_append, htry]
    by_cases hcnd : startsWithL (rest.dropWhile isWsChar) lit = true
    · rw [if_pos ⟨hcnd, by simp⟩, if_pos ⟨hcnd, by simp⟩]
    · rw [if_neg (by rintro ⟨h, _⟩; exact hcnd h),
        if_neg (by rintro ⟨h, _⟩; exact hcnd h)]
      have := ih fun d hd => hdd d (by simp [hd])
      rw [if_neg (by rintro ⟨h, _⟩; exact hcnd h)] at this
      exact this

theorem tryNumM_append (n rest : List Char)
    (hdd : ∀ c ∈ n, isDigitDotChar c = true)
    (hhd : ∀ d, rest.head? = some d → isDigitDotChar d = false) :
    tryNumM (n ++ rest) =
      if mTailCheck rest = true ∧ n ≠ [] then some n else none := by
  rw [tryNumM]
  rw [takeWhile_append_of _ n rest hdd hhd, List.drop_left]
  cases n with
  | nil => simp
  | cons c t =>
    rw [if_neg (by simp)]
    by_cases hk : mTailCheck rest = true
    · rw [if_pos hk, if_pos ⟨hk, by simp⟩]
    · rw [if_neg hk, if_neg (by rintro ⟨h, _⟩; exact hk h)]

theorem searchNumM_append (n rest : List Char)
    (hdd : ∀ c ∈ n, isDigitDotChar c = true)
    (hhd : ∀ d, rest.head? = some d → isDigitDotChar d = false) :
    searchNumM (n ++ rest) =
      if mTailCheck rest = true ∧ n ≠ [] then some n else searchNumM rest := by
  induction n with
  | nil => simp
  | cons c t ih =>
    have htry := tryNumM_append (c :: t) rest hdd hhd
    rw [List.cons_append, searchNumM, ← List.cons_append, htry]
    by_cases hcnd : mTailCheck rest = true
    · rw [if_pos ⟨hcnd, by simp⟩, if_pos ⟨hcnd, by simp⟩]
    · rw [if_neg (by rintro ⟨h, _⟩; exact hcnd h),
        if_neg (by rintro ⟨h, _⟩; exact hcnd h)]
      have := ih fun d hd => hdd d (by simp [hd])
      rw [if_neg (by rintro ⟨h, _⟩; exact hcnd h)] at this
      exact this

theorem tryMins_append (n rest : List Char)
    (hdd : ∀ c ∈ n, isDigitDotChar c = true)
    (hhd : ∀ d, rest.head? = some d → isDigitDotChar d = false) :
    tryMins (n ++ rest) =
      if minsTailCheck rest = true ∧ n ≠ [] then some n else none := by
  rw [tryMins]
  rw [takeWhile_append_of _ n rest hdd hhd, List.drop_left]
  cases n with
  | nil => simp
  | cons c t =>
    rw [if_neg (by simp)]
    by_cases hk : minsTailCheck rest = true
    · rw [if_pos hk, if_pos ⟨hk, by simp⟩]
    · rw [if_neg hk, if_neg (by rintro ⟨h, _⟩; exact hk h)]

theorem searchMins_append (n rest : List Char)
    (hdd : ∀ c ∈ n, isDigitDotChar c = true)
    (hhd : ∀ d, rest.head? = some d → isDigitDotChar d = false) :
    searchMins (n ++ rest) =
      if minsTailCheck rest = true ∧ n ≠ [] then some n else searchMins rest := by
  induction n with
  | nil => simp
  | cons c t ih =>
    have htry := tryMins_append (c :: t) rest hdd hhd
    rw [List.cons_append, searchMins, ← List.cons_append, htry]
    by_cases hcnd : minsTailCheck rest = true
    · rw [if_pos ⟨hcnd, by simp⟩, if_pos ⟨hcnd, by simp⟩]
    · rw [if_neg (by rintro ⟨h, _⟩; exact hcnd h),
        if_neg (by rintro ⟨h, _⟩; exact hcnd h)]
      have := ih fun d hd => hdd d (by simp [hd])
      rw [if_neg (by rintro ⟨h, _⟩; exact hcnd h)] at this
      exact this

theorem searchNum_append (n rest : List Char) (hne : n ≠ [])
    (hdd : ∀ c ∈ n, isDigitDotChar c = true)
    (hhd : ∀ d, rest.head? = some d → isDigitDotChar d = false) :
    searchNum (n ++ rest) = some n := by
  cases n with
  | nil => exact absurd rfl hne
  | cons c t =>
    rw [List.cons_append, searchNum, if_pos (hdd c (by simp)), ← List.cons_append,
      takeWhile_append_of _ (c :: t) rest hdd hhd]

/-- Trimming then lowercasing a digit run followed by a fixed lowercase
non-whitespace tail changes nothing. -/
theorem distPrep (n rest : List Char) (hne : n ≠ [])
    (hdd : ∀ c ∈ n, isDigitDotChar c = true)
    (hrestLower : ∀ c ∈ rest, lowerChar c = c)
    (hrestLast : ∀ c, rest.getLast? = some c → isWsChar c = false)
    (hrestNe : rest ≠ []) :
    lowerL (trimL (n ++ rest)) = n ++ rest := by
  have h1 : ∀ c, (n ++ rest).head? = some c → isWsChar c = false := by
    cases n with
    | nil => exact absurd rfl hne
    | cons a t =>
      intro c hc
      rw [List.cons_append] at hc
      simp only [List.head?_cons, Option.some.injEq] at hc
      rw [← hc]
      exact isWsChar_digitDot (hdd a (by simp))
  have h2 : ∀ c, (n ++ rest).getLast? = some c → isWsChar c = false := by
    intro c hc
    rw [List.getLast?_append] at hc
    cases hrl : rest.getLast? with
    | none =>
      exact absurd (List.getLast?_eq_none_iff.1 hrl) hrestNe
    | some d =>
      rw [hrl, show ((some d).or n.getLast?) = some d from rfl,
        Option.some.injEq] at hc
      rw [← hc]
      exact hrestLast d hrl
  have h3 : ∀ c ∈ n ++ rest, lowerChar c = c := by
    intro c hc
    rcases List.mem_append.1 hc with hc | hc
    · exact lowerChar_digitDot (hdd c hc)
    · exact hrestLower c hc
  rw [trimL_noop h1 h2, lowerL_fixed h3]

theorem head_hyp {rest : List Char} {a : Char} (h : rest.head? = some a)
    (ha : isDigitDotChar a = false) :
    ∀ d, rest.head? = some d → isDigitDotChar d = false := by
  intro d hd
  rw [h, Option.some.injEq] at hd
  rw [← hd]
  exact ha

theorem last_hyp {rest : List Char} {a : Char} (h : rest.getLast? = some a)
    (ha : isWsChar a = false) :
    ∀ c, rest.getLast? = some c → isWsChar c = false := by
  intro d hd
  rw [h, Option.some.injEq] at hd
  rw [← hd]
  exact ha

/-- C6: the distance parser on the spec's concrete examples, a bare-number
and an unparsable example, and in general: a number token followed by km is
multiplied by 1000, by m is returned as is, and by mins or minutes is
multiplied by 80. -/
theorem distance_to_metres_spec :
    distanceToMetres (str "0.5 km") = .fin 500
    ∧ distanceToMetres (str "500 m") = .fin 500
    ∧ distanceToMetres (str "2 mins") = .fin 160
    ∧ distanceToMetres (str "") = .inf
    ∧ distanceToMetres (str "about 700 metres away") = .fin 700
    ∧ distanceToMetres (str "far away") = .inf
    ∧ (∀ (n : List Char) (q : ℚ), n ≠ [] →
        (∀ c ∈ n, isDigitDotChar c = true) →
        parseFloatDD n = .fin q →
        distanceToMetres (n ++ str " km") = .fin (q * 1000)
        ∧ distanceToMetres (n ++ str " m") = .fin q
        ∧ distanceToMetres (n ++ str " mins") = .fin (q * 80)
        ∧ distanceToMetres (n ++ str " minutes") = .fin (q * 80)) := by
  refine ⟨by decide, by decide, by decide, by decide, by decide, by decide, ?_⟩
  intro n q hne hdd hq
  have happ : ∀ rest : List Char, rest ≠ [] → ¬(n ++ rest = []) := by
    intro rest _ h
    exact hne (List.append_eq_nil.1 h).1
  refine ⟨?_, ?_, ?_, ?_⟩
  · rw [distanceToMetres,
      distPrep n (str " km") hne hdd (by decide)
        (@last_hyp (str " km") 'm' (by decide) (by decide)) (by decide),
      if_neg (happ _ (by decide)),
      searchNumLit_append _ n _ hdd (@head_hyp (str " km") ' ' (by decide) (by decide)),
      if_pos ⟨by decide, hne⟩]
    dsimp only
    rw [hq, jsMul_fin]
    norm_num
  · rw [distanceToMetres,
      distPrep n (str " m") hne hdd (by decide)
        (@last_hyp (str " m") 'm' (by decide) (by decide)) (by decide),
      if_neg (happ _ (by decide)),
      searchNumLit_append _ n _ hdd (@head_hyp (str " m") ' ' (by decide) (by decide)),
      if_neg (by rintro ⟨h, _⟩; exact absurd h (by decide)),
      show searchNumLit (str "km") (str " m") = none from by decide]
    dsimp only
    rw [searchNumM_append n _ hdd (@head_hyp (str " m") ' ' (by decide) (by decide)),
      if_pos ⟨by decide, hne⟩]
    dsimp only
    rw [hq]
  · rw [distanceToMetres,
      distPrep n (str " mins") hne hdd (by decide)
        (@last_hyp (str " mins") 's' (by decide) (by decide)) (by decide),
      if_neg (happ _ (by decide)),
      searchNumLit_append _ n _ hdd (@head_hyp (str " mins") ' ' (by decide) (by decide)),
      if_neg (by rintro ⟨h, _⟩; exact absurd h (by decide)),
      show searchNumLit (str "km") (str " mins") = none from by decide]
    dsimp only
    rw [searchNumM_append n _ hdd (@head_hyp (str " mins") ' ' (by decide) (by decide)),
      if_neg (by rintro ⟨h, _⟩; exact absurd h (by decide)),
      show searchNumM (str " mins") = none from by decide]
    dsimp only
    rw [searchMins_append n _ hdd (@head_hyp (str " mins") ' ' (by decide) (by decide)),
      if_pos ⟨by decide, hne⟩]
    dsimp only
    rw [hq, jsMul_fin]
    norm_num
  · rw [distanceToMetres,
      distPrep n (str " minutes") hne hdd (by decide)
        (@last_hyp (str " minutes") 's' (by decide) (by decide)) (by decide),
      if_neg (happ _ (by decide)),
      searchNumLit_append _ n _ hdd (@head_hyp (str " minutes") ' ' (by decide) (by decide)),
      if_neg (by rintro ⟨h, _⟩; exact absurd h (by decide)),
      show searchNumLit (str "km") (str " minutes") = none from by decide]
    dsimp only
    rw [searchNumM_append n _ hdd (@head_hyp (str " minutes") ' ' (by decide) (by decide)),
      if_neg (by rintro ⟨h, _⟩; exact absurd h (by decide)),
      show searchNumM (str " minutes") = none from by decide]
    dsimp only
    rw [searchMins_append n _ hdd (@head_hyp (str " minutes") ' ' (by decide) (by decide)),
      if_pos ⟨by decide, hne⟩]
    dsimp only
    rw [hq, jsMul_fin]
    norm_num

/-- Witness for C6: the general clause applied to the token 2 gives 2000,
2, 160 and 160 metres for the four suffixes. -/
theorem distance_to_metres_spec_witness :
    distanceToMetres (str "2" ++ str " km") = .fin (2 * 1000)
    ∧ distanceToMetres (str "2" ++ str " m") = .fin 2
    ∧ distanceToMetres (str "2" ++ str " mins") = .fin (2 * 80)
    ∧ distanceToMetres (str "2" ++ str " minutes") = .fin (2 * 80) :=
  distance_to_metres_spec.2.2.2.2.2.2 (str "2") 2
    (by decide) (by decide) (by decide)

/-! ## Stage-wise facts for the translation and status claim -/

theorem stage5_status (o : Oracles) (message userLang : List Char)
    (tm : List Scored) (bs : ℝ) :
    (chatStage5 o message userLang tm bs).status = 200 := by
  rw [chatStage5]
  cases callLLMFallback o message tm userLang with
  | none => rfl
  | some t =>
    dsimp only
    split <;> rfl

theorem stage4_status (env : Env) (o : Oracles) (apt message userLang : List Char) :
    (chatStage4 env o apt message userLang).status = 200 := by
  rw [chatStage4]
  cases (findBestMatches o env.globalFaqs (env.faqForApt apt) message 5).head? with
  | none => exact stage5_status ..
  | some b =>
    dsimp only
    split
    · rfl
    · exact stage5_status ..

theorem stage3_status (env : Env) (o : Oracles) (apt message userLang : List Char) :
    (chatStage3 env o apt message userLang).status = 200 := by
  rw [chatStage3]
  cases detectNearbyIntent env.guide message with
  | none => exact stage4_status ..
  | some it =>
    dsimp only
    split
    · rfl
    · cases o.places _ _ it.type with
      | ok places => rfl
      | error e => rfl

theorem stage2_status (env : Env) (o : Oracles) (apt message userLang : List Char) :
    (chatStage2 env o apt message userLang).status = 200 := by
  rw [chatStage2]
  cases findLocalGuidePlace env.guide apt message with
  | none => exact stage3_status ..
  | some row => rfl

theorem stage5_reply (o : Oracles) (message userLang : List Char)
    (tm : List Scored) (bs : ℝ)
    (hsrc : (chatStage5 o message userLang tm bs).source ≠ str "llm_fallback") :
    ∃ base, (chatStage5 o message userLang tm bs).reply =
      applyLang o userLang base := by
  rw [chatStage5] at hsrc ⊢
  cases hc : callLLMFallback o message tm userLang with
  | none => exact ⟨cannedFallbackText, rfl⟩
  | some t =>
    rw [hc] at hsrc
    dsimp only at hsrc ⊢
    by_cases hne : t ≠ []
    · rw [if_pos hne] at hsrc
      exact absurd rfl hsrc
    · rw [if_neg hne] at hsrc ⊢
      exact ⟨cannedFallbackText, rfl⟩

theorem stage4_reply (env : Env) (o : Oracles) (apt message userLang : List Char)
    (hsrc : (chatStage4 env o apt message userLang).source ≠ str "llm_fallback") :
    ∃ base, (chatStage4 env o apt message userLang).reply =
      applyLang o userLang base := by
  rw [chatStage4] at hsrc ⊢
  cases hc : (findBestMatches o env.globalFaqs (env.faqForApt apt) message 5).head? with
  | none => rw [hc] at hsrc; exact stage5_reply _ _ _ _ _ hsrc
  | some b =>
    rw [hc] at hsrc
    dsimp only at hsrc ⊢
    split at hsrc
    · rename_i hθ
      rw [if_pos hθ]
      exact ⟨b.answer, rfl⟩
    · rename_i hθ
      rw [if_neg hθ]
      exact stage5_reply _ _ _ _ _ hsrc

theorem stage3_reply (env : Env) (o : Oracles) (apt message userLang : List Char)
    (hsrc : (chatStage3 env o apt message userLang).source ≠ str "llm_fallback") :
    ∃ base, (chatStage3 env o apt message userLang).reply =
      applyLang o userLang base := by
  rw [chatStage3] at hsrc ⊢
  cases hc : detectNearbyIntent env.guide message with
  | none => rw [hc] at hsrc; exact stage4_reply _ _ _ _ _ hsrc
  | some it =>
    dsimp only
    split
    · exact ⟨missingLatLngText, rfl⟩
    · cases o.places _ _ it.type with
      | ok places =>
        exact ⟨match formatPlacesReply it.label places with
               | some t => t
               | none => placesApologyText it.label, rfl⟩
      | error e => exact ⟨placesErrorText, rfl⟩

theorem stage2_reply (env : Env) (o : Oracles) (apt message userLang : List Char)
    (hsrc : (chatStage2 env o apt message userLang).source ≠ str "llm_fallback") :
    ∃ base, (chatStage2 env o apt message userLang).reply =
      applyLang o userLang base := by
  rw [chatStage2] at hsrc ⊢
  cases hc : findLocalGuidePlace env.guide apt message with
  | none => rw [hc] at hsrc; exact stage3_reply _ _ _ _ _ hsrc
  | some row => exact ⟨formatLocalGuideReply row message, rfl⟩

/-- C9 (amended): failed language detection defaults to en; a failed
translation call returns the original text; a well-formed request always ends
with status 200 whatever the oracles do; and every terminal reply except the
generative-fallback one is the translation step applied to some base text. -/
theorem translation_degradation :
    (∀ o : Oracles, o.detect = .error () → detectLanguage o = str "en")
    ∧ (∀ (o : Oracles) (text lang : List Char),
        o.translate text lang = .error () → translateText o text lang = text)
    ∧ (∀ (env : Env) (o : Oracles) (apt message : List Char),
        apt ≠ [] → message ≠ [] → (chatHandler env o apt message).status = 200)
    ∧ (∀ (env : Env) (o : Oracles) (apt message : List Char),
        (chatHandler env o apt message).status = 200 →
        (chatHandler env o apt message).source ≠ str "llm_fallback" →
        ∃ base, (chatHandler env o apt message).reply =
          applyLang o (detectLanguage o) base) := by
  refine ⟨?_, ?_, ?_, ?_⟩
  · intro o h
    rw [detectLanguage, h]
  · intro o text lang h
    rw [translateText]
    split_ifs
    · rfl
    · rfl
    · rfl
    · rw [h]
  · intro env o apt message ha hm
    rw [chatHandler, if_neg (by rintro (h | h) <;> [exact ha h; exact hm h])]
    cases detectNearestCategoryIntent message with
    | none => exact stage2_status ..
    | some i =>
      dsimp only
      cases getNearestFromLocalGuide env.guide apt i.category with
      | none => exact stage2_status ..
      | some row => rfl
  · intro env o apt message hst hsrc
    by_cases hcond : apt = [] ∨ message = []
    · rw [chatHandler, if_pos hcond] at hst
      exact absurd hst (by decide)
    · have hred : chatHandler env o apt message =
          chatStage2 env o apt message (detectLanguage o) ∨
          ∃ (i : CatIntent) (row : Row), chatHandler env o apt message =
            ⟨200, applyLang o (detectLanguage o)
                (formatLocalGuideNearestReply row i.label),
              str "local_guide_nearest", detectLanguage o, none, [],
              some ⟨some row.category, row.name, row.distance,
                row.maps_link⟩⟩ := by
        rw [chatHandler, if_neg hcond]
        cases hc : detectNearestCategoryIntent message with
        | none => exact Or.inl rfl
        | some i =>
          dsimp only
          cases hc2 : getNearestFromLocalGuide env.guide apt i.category with
          | none => exact Or.inl rfl
          | some row => exact Or.inr ⟨i, row, rfl⟩
      rcases hred with hred | ⟨i, row, hred⟩
      · rw [hred] at hsrc ⊢
        exact stage2_reply _ _ _ _ _ hsrc
      · rw [hred]
        exact ⟨formatLocalGuideNearestReply row i.label, rfl⟩

/-- Witness for C9: with every oracle failing, the language defaults to en,
a translation returns its input, and a concrete request still ends 200. -/
theorem translation_degradation_witness :
    detectLanguage ⟨.error (), fun _ _ => .error (), fun _ => .error (),
      fun _ _ _ => .error (), fun _ _ => .error ()⟩ = str "en"
    ∧ translateText ⟨.error (), fun _ _ => .error (), fun _ => .error (),
        fun _ _ _ => .error (), fun _ _ => .error ()⟩
        (str "hello") (str "fr") = str "hello"
    ∧ (chatHandler ⟨[], [], fun _ => [], [], 0⟩
        ⟨.error (), fun _ _ => .error (), fun _ => .error (),
          fun _ _ _ => .error (), fun _ _ => .error ()⟩
        (str "A1") (str "hi")).status = 200 :=
  ⟨translation_degradation.1 _ rfl,
   translation_degradation.2.1 _ (str "hello") (str "fr") rfl,
   translation_degradation.2.2.1 _ _ _ _ (by decide) (by decide)⟩

/-- Counterexample for C9 as stated: a request answered by the generative
fallback in a detected non-English language returns the generated text as is;
it is not the output of the translation step on any base text (here the
translation oracle maps every nonempty text to TRANSLATED). -/
theorem translation_claim_counterexample :
    (chatHandler ⟨[], [], fun _ => [], [], 0⟩
      ⟨.ok (str "fr"), fun _ _ => .ok (str "TRANSLATED"), fun _ => .error (),
        fun _ _ _ => .error (), fun _ _ => .ok (str "bonjour")⟩
      (str "A1") (str "hello")).status = 200
    ∧ (chatHandler ⟨[], [], fun _ => [], [], 0⟩
      ⟨.ok (str "fr"), fun _ _ => .ok (str "TRANSLATED"), fun _ => .error (),
        fun _ _ _ => .error (), fun _ _ => .ok (str "bonjour")⟩
      (str "A1") (str "hello")).detected_language = str "fr"
    ∧ (chatHandler ⟨[], [], fun _ => [], [], 0⟩
      ⟨.ok (str "fr"), fun _ _ => .ok (str "TRANSLATED"), fun _ => .error (),
        fun _ _ _ => .error (), fun _ _ => .ok (str "bonjour")⟩
      (str "A1") (str "hello")).reply = str "bonjour"
    ∧ (∀ b : List Char, b ≠ [] →
        translateText
          ⟨.ok (str "fr"), fun _ _ => .ok (str "TRANSLATED"), fun _ => .error (),
            fun _ _ _ => .error (), fun _ _ => .ok (str "bonjour")⟩
          b (str "fr") = str "TRANSLATED")
    ∧ translateText
        ⟨.ok (str "fr"), fun _ _ => .ok (str "TRANSLATED"), fun _ => .error (),
          fun _ _ _ => .error (), fun _ _ => .ok (str "bonjour")⟩
        [] (str "fr") = []
    ∧ str "bonjour" ≠ str "TRANSLATED"
    ∧ str "bonjour" ≠ ([] : List Char) := by
  refine ⟨rfl, rfl, rfl, ?_, rfl, by decide, by decide⟩
  intro b hb
  rw [translateText, if_neg hb]
  rfl

/-! ## The ALL scope between the two local-guide lookups -/

/-- C10 (amended): a row whose apt_id is ALL (case-insensitively) is a
candidate of findLocalGuidePlace for every requested apartment id, but
getNearestFromLocalGuide never returns a row whose trimmed apt_id differs
from the trimmed requested id — in particular an ALL row is never resolved
as a nearest entry unless the requested id itself trims to the row's own
apt_id. -/
theorem all_scope_inconsistency :
    (∀ (guide : List Row) (r : Row) (aptId : List Char), r ∈ guide →
      upperL (trimL r.apt_id) = str "ALL" → r ∈ lgCandidates guide aptId)
    ∧ (∀ (guide : List Row) (r : Row) (aptId category : List Char),
        trimL r.apt_id ≠ trimL aptId →
        getNearestFromLocalGuide guide aptId category ≠ some r) := by
  constructor
  · intro guide r aptId hr hall
    rw [lgCandidates]
    refine List.mem_filter.2 ⟨hr, ?_⟩
    rw [Bool.or_eq_true]
    right
    exact beq_iff_eq.2 hall
  · intro guide r aptId category hne h
    have hmem := minByDist_mem h
    rw [List.mem_filter] at hmem
    have hmem2 := hmem.1
    rw [getLocalGuideRowsForApt, List.mem_filter] at hmem2
    exact hne (beq_iff_eq.1 hmem2.2)

/-- Witness for C10: a row scoped ALL is a named-place candidate for
apartment A1, yet nearest-category resolution for A1 never returns it. -/
theorem all_scope_inconsistency_witness :
    (⟨str "ALL", str "pharmacy", str "G", str "10 m", str "", str ""⟩ : Row) ∈
      lgCandidates [⟨str "ALL", str "pharmacy", str "G", str "10 m", str "", str ""⟩]
        (str "A1")
    ∧ getNearestFromLocalGuide
        [⟨str "ALL", str "pharmacy", str "G", str "10 m", str "", str ""⟩]
        (str "A1") (str "pharmacy") ≠
        some ⟨str "ALL", str "pharmacy", str "G", str "10 m", str "", str ""⟩ :=
  ⟨all_scope_inconsistency.1 _ _ (str "A1") (by decide) (by decide),
   all_scope_inconsistency.2 _ _ (str "A1") (str "pharmacy") (by decide)⟩

/-- Counterexample for C10 as stated: for the requested apartment id ALL,
nearest-category resolution does return the row scoped ALL, so the row is
not unreachable for every apartment id. -/
theorem all_scope_counterexample :
    upperL (trimL (str "ALL")) = str "ALL"
    ∧ getNearestFromLocalGuide
        [⟨str "ALL", str "pharmacy", str "G", str "10 m", str "", str ""⟩]
        (str "ALL") (str "pharmacy") =
        some ⟨str "ALL", str "pharmacy", str "G", str "10 m", str "", str ""⟩ := by
  decide

end Yaka
